import Mathlib

/-!
Verification of the `smeltme` reporting script.

The Python program `smeltme.py` is shallowly embedded below.  Network effects
are modelled by oracle functions (one per remote endpoint); every HTTP GET
issued by the program is additionally recorded in a request trace, and every
line printed to standard error is recorded in an error trace, so that claims
about which requests are made and which diagnostics are emitted can be stated
and proved.  The `while` loop of the paginated fetch is given explicit fuel
standing for the number of iterations of any terminating execution.
-/

set_option autoImplicit false
set_option maxRecDepth 10000

namespace Smeltme

universe u
variable {α : Type u}

/-! ### Character-level models of the Python string operations used by the script -/

/-- Model of Python `s.split(sep, maxsplit=1)[0]`: the text before the first
occurrence of `sep`, or all of `s` when `sep` does not occur. -/
def takeUntilChar (sep : Char) (s : String) : String :=
  String.mk (s.data.takeWhile (fun c => c ≠ sep))

/-- Model of Python `s.split(sep)[-1]`: the text after the last occurrence of
`sep`, or all of `s` when `sep` does not occur.  `os.path.basename` is this
operation with separator `'/'`. -/
def afterLastChar (sep : Char) (s : String) : String :=
  String.mk ((s.data.reverse.takeWhile (fun c => c ≠ sep)).reverse)

/-- Python `str.startswith`. -/
def strStarts (s pre : String) : Bool := pre.data.isPrefixOf s.data

/-- Render a natural number in decimal, as Python `str()` does for the
integer fields of the JSON records (structural recursion on a fuel bound so
that the kernel can evaluate it). -/
def natToStrGo : Nat → Nat → List Char
  | 0, _ => []
  | fuel + 1, n =>
    if n < 10 then [Char.ofNat (48 + n)]
    else natToStrGo fuel (n / 10) ++ [Char.ofNat (48 + n % 10)]

def natToStr (n : Nat) : String := String.mk (natToStrGo (n + 1) n)

/-! ### The data model of the JSON records the script consumes -/

/-- A reference record `{"name": ..., "url": ...}` attached to an incident. -/
structure Ref where
  name : String
  url : String
deriving DecidableEq, Repr

/-- The nested `incident` object of a request record (`project` is optional;
`Option` models presence of the `"project"` key tested by `"project" in incident`). -/
structure Inner where
  project : Option String
  references : List Ref
deriving DecidableEq, Repr

/-- An incident/request record as used by the script.  Only the keys the
script reads are modelled.  `incident = none` models a JSON `null` (falsy). -/
structure Incident where
  packages : List String
  codestreams : List String
  channellist : List String
  incident : Option Inner
  request_id : Nat
  status : String
  references : List Ref
deriving DecidableEq, Repr

/-- One page of the paginated overview endpoint:
`{"results": [...], "next": <url or null>}`. -/
structure Page where
  results : List Incident
  next : Option String
deriving DecidableEq, Repr

/-! ### Incident fetcher: `get_incidents` / `get_all_incidents` -/

/-- The URL of the first page for a route, from `get_incidents`. -/
def incidentsUrl (route : String) : String :=
  "https://smelt.suse.de/api/v1/overview/" ++ route ++ "/"

/-- The `while data["next"]:` loop of `get_incidents`.  The oracle `smelt`
returns `none` exactly when `get_json` fails (network error or non-2xx
status) and the loop returns the results accumulated so far.  A `next` value
of `none` (JSON `null`) or `some ""` (falsy empty string) ends the loop. -/
def fetchPages (smelt : String → Option Page) : Nat → Page → List Incident
  | 0, _ => []
  | fuel + 1, d =>
    match d.next with
    | none => []
    | some nxt =>
      if nxt = "" then []
      else
        match smelt nxt with
        | none => []
        | some d2 => d2.results ++ fetchPages smelt fuel d2

/-- Model of `get_incidents(route)`: fetch the first page, then follow continuations. -/
def get_incidents (smelt : String → Option Page) (fuel : Nat) (route : String) :
    List Incident :=
  match smelt (incidentsUrl route) with
  | none => []
  | some d => d.results ++ fetchPages smelt fuel d

/-- Stable insertion into a sorted list: the new element goes before the
first element it compares `le` to, so equal keys keep their original order,
as Python's stable `list.sort` does. -/
def insertSorted (le : α → α → Bool) (x : α) : List α → List α
  | [] => [x]
  | y :: ys => if le x y then x :: y :: ys else y :: insertSorted le x ys

/-- Stable insertion sort, modelling Python's stable `list.sort(key=...)`. -/
def insertionSort (le : α → α → Bool) : List α → List α
  | [] => []
  | x :: xs => insertSorted le x (insertionSort le xs)

/-- ASCII lowercasing; models `str.casefold` on the ASCII package names. -/
def lowerStr (s : String) : String := String.mk (s.data.map Char.toLower)

/-- Python string `<=` (lexicographic on code points), kernel-evaluable. -/
def charListLe : List Char → List Char → Bool
  | [], _ => true
  | _ :: _, [] => false
  | a :: as, b :: bs =>
    if a = b then charListLe as bs else decide (a.toNat < b.toNat)

/-- Python string `<` (lexicographic on code points), kernel-evaluable. -/
def charListLt : List Char → List Char → Bool
  | [], [] => false
  | [], _ :: _ => true
  | _ :: _, [] => false
  | a :: as, b :: bs =>
    if a = b then charListLt as bs else decide (a.toNat < b.toNat)

def strLe (a b : String) : Bool := charListLe a.data b.data

def strLt (a b : String) : Bool := charListLt a.data b.data

/-- The sort key `str.casefold(i["packages"][0])` of `get_all_incidents`
(the `IndexError` that Python would raise on an empty package list is not
modelled; the key of such a record is the key of `""`). -/
def incidentKey (i : Incident) : String := lowerStr (i.packages.headD "")

def incidentLe (a b : Incident) : Bool := strLe (incidentKey a) (incidentKey b)

/-- Model of `get_all_incidents(routes)`: one `get_incidents` per route (the thread
pool runs them independently; `executor.map` yields results in route order),
concatenated and sorted by the case-folded primary package name. -/
def get_all_incidents (smelt : String → Option Page) (fuel : Nat)
    (routes : List String) : List Incident :=
  insertionSort incidentLe ((routes.map (get_incidents smelt fuel)).flatten)

/-! ### Chains of successfully fetched pages -/

/-- Predicate `PageChain smelt d rest` says: starting from page `d`, following the
`next` links through `smelt` succeeds at every step and visits exactly the
pages in `rest` before reaching a page whose `next` is `null` (or the falsy
empty string). -/
inductive PageChain (smelt : String → Option Page) : Page → List Page → Prop
  | last (d : Page) : d.next = none → PageChain smelt d []
  | stop (d : Page) : d.next = some "" → PageChain smelt d []
  | step (d : Page) (u : String) (d2 : Page) (rest : List Page) :
      d.next = some u → u ≠ "" → smelt u = some d2 → PageChain smelt d2 rest →
      PageChain smelt d (d2 :: rest)

/-- Predicate `FailChain smelt d rest` says: starting from page `d`, following the
`next` links succeeds for the pages in `rest` and then the next continuation
request fails (`smelt` returns `none`). -/
inductive FailChain (smelt : String → Option Page) : Page → List Page → Prop
  | fail (d : Page) (u : String) :
      d.next = some u → u ≠ "" → smelt u = none → FailChain smelt d []
  | step (d : Page) (u : String) (d2 : Page) (rest : List Page) :
      d.next = some u → u ≠ "" → smelt u = some d2 → FailChain smelt d2 rest →
      FailChain smelt d (d2 :: rest)

/-! ### URL host extraction: a model of `urllib.parse.urlparse(url).netloc` -/

def isSchemeChar (c : Char) : Bool := c.isAlphanum || c = '+' || c = '-' || c = '.'

/-- Split a character list at its first `':'` (text before, text after). -/
def breakAtColon : List Char → Option (List Char × List Char)
  | [] => none
  | c :: cs =>
    if c = ':' then some ([], cs)
    else (breakAtColon cs).map (fun p => (c :: p.1, p.2))

/-- Remove a leading `scheme:` when the text before the first `':'` is a
valid URL scheme (a letter followed by letters, digits, `+`, `-`, `.`), as
`urlparse` does before looking for the `//` that introduces the netloc. -/
def schemeSplit (cs : List Char) : List Char :=
  match breakAtColon cs with
  | none => cs
  | some (pre, post) =>
    if !pre.isEmpty && (pre.headD 'a').isAlpha && pre.all isSchemeChar then post
    else cs

/-- A character that may appear inside a netloc: anything up to the first
`/`, `?` or `#`. -/
def nlOk (c : Char) : Bool := c ≠ '/' && c ≠ '?' && c ≠ '#'

def netlocChars (cs : List Char) : List Char :=
  match schemeSplit cs with
  | '/' :: '/' :: r => r.takeWhile nlOk
  | _ => []

/-- Model of `urlparse(u).netloc`: the text between the `//` following the scheme and
the next `/`, `?` or `#` (empty when the URL has no `//` part). -/
def netloc (u : String) : String := String.mk (netlocChars u.data)

/-! ### Data model of the tracker queries -/

/-- The `Issue` dataclass of the script. -/
structure Issue where
  url : String
  title : String
deriving DecidableEq, Repr

/-- One entry of a Bugzilla `{"bugs": [...]}` response: `id` and `summary`. -/
structure BzBug where
  id : Nat
  summary : String
deriving DecidableEq, Repr

/-- One entry of a Jira search `{"issues": [...]}` response. -/
structure JIssue where
  key : String
  summary : String
deriving DecidableEq, Repr

/-- Outcome of one HTTP GET: a decoded JSON payload, or a failure
(`requests.RequestException`) carrying the exception text. -/
inductive Resp (α : Type) : Type
  | ok (val : α)
  | err (msg : String)
deriving DecidableEq, Repr

/-- The two credential environment variables. -/
structure Config where
  bugzillaToken : Option String
  jiraToken : Option String
deriving DecidableEq, Repr

/-- The remote tracker endpoints, as oracles.  `bugzilla` receives the host,
the `id` parameter list of the chunk and the optional `Bugzilla_api_key`
parameter; `jiraSearch` receives the `jql` parameter; `jiraIssue` receives
the issue key of the per-issue endpoint and returns its summary field. -/
structure Oracles where
  bugzilla : String → List String → Option String → Resp (List BzBug)
  jiraSearch : String → Resp (List JIssue)
  jiraIssue : String → Resp String

/-- One issued HTTP request, for the request trace. -/
inductive ReqEvent : Type
  | bz (host : String) (ids : List String) (apiKey : Option String)
  | jiraBatch (keys : List String)
  | jiraInd (issue : String)
deriving DecidableEq, Repr

/-- The host a request is addressed to (both Jira endpoints live on
`jira.suse.com`). -/
def eventHost : ReqEvent → String
  | .bz host _ _ => host
  | .jiraBatch _ => "jira.suse.com"
  | .jiraInd _ => "jira.suse.com"

/-- Result of running one of the querying functions: its return value
(`none` models Python `None`), the requests it issued and the lines it
printed to standard error. -/
structure RunOut (α : Type) where
  res : Option α
  reqs : List ReqEvent
  errs : List String
deriving DecidableEq, Repr

/-- Python truthiness of an optional token string (`not TOKEN` is true for
an unset variable and for the empty string). -/
def truthy : Option String → Bool
  | none => false
  | some s => s ≠ ""

/-- Python `str()` of the token value (only reached when the token is
truthy, so the `"None"` branch is never observable). -/
def strOfOpt : Option String → String
  | none => "None"
  | some s => s

def MAX_ISSUES : Nat := 200

/-- The two Bugzilla hosts that require an API key. -/
def tokenHosts : List String := ["bugzilla.suse.com", "bugzilla.opensuse.org"]

/-- The chunking performed by `for issue_id in range(0, len(issue_ids),
MAX_ISSUES)`: successive slices of at most `MAX_ISSUES` elements.  The first
argument is a fuel bound (the list length suffices) so that the recursion is
structural and kernel-evaluable. -/
def chunkGo : Nat → List α → List (List α)
  | 0, _ => []
  | _, [] => []
  | n + 1, l => l.take MAX_ISSUES :: chunkGo n (l.drop MAX_ISSUES)

def chunkList (l : List α) : List (List α) := chunkGo l.length l

def joinComma (l : List String) : String := String.intercalate "," l

/-! ### `get_bugzilla_issues` -/

/-- The `for issue_id in range(...)` loop of `get_bugzilla_issues`: one GET
per chunk; a failing chunk prints `ERROR: <url>: <error text truncated at
its first question mark>` (the `str(exc).split("?", maxsplit=1)[0]` that
prevents the API key in the query string from leaking) and makes the whole
function return `None`. -/
def bzLoop (oracle : Oracles) (host : String) (apiKey : Option String) :
    List (List String) → RunOut (List Issue)
  | [] => ⟨some [], [], []⟩
  | chunk :: rest =>
    match oracle.bugzilla host chunk apiKey with
    | .err msg =>
      ⟨none, [.bz host chunk apiKey],
        ["ERROR: https://" ++ host ++ "/rest/bug: " ++ takeUntilChar '?' msg]⟩
    | .ok bugs =>
      let issues := bugs.map (fun b =>
        Issue.mk ("https://" ++ host ++ "/show_bug.cgi?id=" ++ natToStr b.id)
          b.summary)
      let r := bzLoop oracle host apiKey rest
      ⟨r.res.map (fun more => issues ++ more),
        ReqEvent.bz host chunk apiKey :: r.reqs, r.errs⟩

/-- Model of `get_bugzilla_issues(host, urls)`: drop the host silently when it needs a
token and none is configured; otherwise extract the ids (`u.split("=")[-1]`),
add the `Bugzilla_api_key` parameter for the hosts that require it, and run
the chunk loop. -/
def get_bugzilla_issues (cfg : Config) (oracle : Oracles) (host : String)
    (urls : List String) : RunOut (List Issue) :=
  if ¬ truthy cfg.bugzillaToken ∧ host ∈ tokenHosts then ⟨none, [], []⟩
  else
    bzLoop oracle host
      (if host ∈ tokenHosts then some (strOfOpt cfg.bugzillaToken) else none)
      (chunkList (urls.map (afterLastChar '=')))

/-! ### `get_jira_issue` / `get_jira_issues` -/

/-- Model of `get_jira_issue(url)`: the individual fallback request.  The issue key is
`os.path.basename(url)`; a failing request prints the `get_json` diagnostic
and yields `None`; a successful one yields an `Issue` carrying the INPUT url. -/
def get_jira_issue (cfg : Config) (oracle : Oracles) (url : String) :
    Option Issue × List ReqEvent × List String :=
  if ¬ truthy cfg.jiraToken then (none, [], [])
  else
    let issue := afterLastChar '/' url
    match oracle.jiraIssue issue with
    | .err msg =>
      (none, [ReqEvent.jiraInd issue],
        ["ERROR: https://jira.suse.com/rest/api/2/issue/" ++ issue ++ ": " ++ msg])
    | .ok summary => (some ⟨url, summary⟩, [ReqEvent.jiraInd issue], [])

/-- The batch-search loop of `get_jira_issues`: one GET per chunk with a
`key in (...)` JQL clause; a failing chunk prints the `get_json` diagnostic
and makes the whole function return `None`. -/
def jiraLoop (oracle : Oracles) : List (List String) → RunOut (List Issue)
  | [] => ⟨some [], [], []⟩
  | chunk :: rest =>
    let jql := "key in (" ++ joinComma chunk ++ ")"
    match oracle.jiraSearch jql with
    | .err msg =>
      ⟨none, [ReqEvent.jiraBatch chunk],
        ["ERROR: https://jira.suse.com/rest/api/2/search: " ++ msg]⟩
    | .ok found =>
      let issues := found.map (fun i =>
        Issue.mk ("https://jira.suse.com/browse/" ++ i.key) i.summary)
      let r := jiraLoop oracle rest
      ⟨r.res.map (fun more => issues ++ more),
        ReqEvent.jiraBatch chunk :: r.reqs, r.errs⟩

/-- The `executor.map(get_jira_issue, missing)` compensation pass: one
individual request per missing url, in order; failed ones contribute
nothing. -/
def jiraRetries (cfg : Config) (oracle : Oracles) :
    List String → List Issue × List ReqEvent × List String
  | [] => ([], [], [])
  | u :: us =>
    let one := get_jira_issue cfg oracle u
    let rest := jiraRetries cfg oracle us
    (one.1.elim [] (fun i => [i]) ++ rest.1, one.2.1 ++ rest.2.1,
      one.2.2 ++ rest.2.2)

/-- The `missing` computation of `get_jira_issues` followed by the retry
pass: retry every input url absent from the batch-constructed urls. -/
def jiraCompensate (cfg : Config) (oracle : Oracles) (urls : List String)
    (issues : List Issue) : List Issue × List ReqEvent × List String :=
  jiraRetries cfg oracle
    (urls.filter (fun u => !((issues.map Issue.url).contains u)))

/-- Model of `get_jira_issues(urls)`: drop the whole group when no Jira token is
configured; otherwise run the batch loop on the basenames, then retry
individually every input url absent from the batch-constructed urls. -/
def get_jira_issues (cfg : Config) (oracle : Oracles) (urls : List String) :
    RunOut (List Issue) :=
  if ¬ truthy cfg.jiraToken then ⟨none, [], []⟩
  else
    match jiraLoop oracle (chunkList (urls.map (afterLastChar '/'))) with
    | ⟨none, reqs, errs⟩ => ⟨none, reqs, errs⟩
    | ⟨some issues, reqs, errs⟩ =>
      ⟨some (issues ++ (jiraCompensate cfg oracle urls issues).1),
        reqs ++ (jiraCompensate cfg oracle urls issues).2.1,
        errs ++ (jiraCompensate cfg oracle urls issues).2.2⟩

/-! ### `get_titles` -/

/-- Model of `defaultdict(list)` insertion: append `u` to the group keyed `h`,
creating the group at the end when absent. -/
def groupAdd (gs : List (String × List String)) (h u : String) :
    List (String × List String) :=
  match gs with
  | [] => [(h, [u])]
  | (k, us) :: rest =>
    if k = h then (k, us ++ [u]) :: rest else (k, us) :: groupAdd rest h u

/-- The grouping loop of `get_titles`: partition the urls by netloc into
Bugzilla groups (netloc starting `bugzilla.`) and the Jira url list (netloc
starting `jira.`); all other urls are ignored. -/
def partitionGo :
    List (String × List String) → List String → List String →
      List (String × List String) × List String
  | gs, js, [] => (gs, js)
  | gs, js, u :: us =>
    let n := netloc u
    if strStarts n "bugzilla." then partitionGo (groupAdd gs n u) js us
    else if strStarts n "jira." then partitionGo gs (js ++ [u]) us
    else partitionGo gs js us

def partitionUrls (urls : List String) :
    List (String × List String) × List String :=
  partitionGo [] [] urls

/-- Python `dict` assignment `m[k] = v` (the merge `titles |= {...}` is a
sequence of such assignments): overwrite the value when the key exists,
append the pair otherwise. -/
def dictUpdate (m : List (String × String)) (k v : String) :
    List (String × String) :=
  if m.any (fun p => p.1 == k) then
    m.map (fun p => if p.1 == k then (k, v) else p)
  else m ++ [(k, v)]

def dictKeys (m : List (String × String)) : List String := m.map Prod.fst

/-- Python `dict.get(k, d)`. -/
def dictGetD (m : List (String × String)) (k d : String) : String :=
  match m.find? (fun p => p.1 == k) with
  | none => d
  | some p => p.2

/-- Model of `get_titles(urls)`: group the urls, drop the unsupported
`bugzilla.gnome.org` group, query every group (the thread pool runs the
groups independently; `as_completed` merges the per-group mappings in a
nondeterministic order, modelled here by submission order — no claim depends
on the completion order), and merge the `{i.url: i.title}` dictionaries of
the groups that did not return `None`.  The input is Python set of urls; the
list argument models its (distinct-element) iteration order. -/
def get_titles (cfg : Config) (oracle : Oracles) (urls : List String) :
    List (String × String) × List ReqEvent × List String :=
  let p := partitionUrls urls
  let bugzillas := p.1.filter (fun g => g.1 != "bugzilla.gnome.org")
  let runs := bugzillas.map (fun g => get_bugzilla_issues cfg oracle g.1 g.2)
  let runs := runs ++
    (if p.2.isEmpty then [] else [get_jira_issues cfg oracle p.2])
  let titles := runs.foldl (fun m r =>
    match r.res with
    | none => m
    | some issues => issues.foldl (fun m i => dictUpdate m i.url i.title) m) []
  (titles, (runs.map RunOut.reqs).flatten, (runs.map RunOut.errs).flatten)

/-- Honest Bugzilla endpoint: every bug in a response was requested (its
decimal id is among the `id` parameters of the request). -/
def bzHonest (oracle : Oracles) : Prop :=
  ∀ host ids apiKey bugs, oracle.bugzilla host ids apiKey = Resp.ok bugs →
    ∀ b ∈ bugs, natToStr b.id ∈ ids

/-- Honest Jira search endpoint: every issue in a batch response was
requested (its key is in the `key in (...)` clause of the query). -/
def jiraHonest (oracle : Oracles) : Prop :=
  ∀ chunk found,
    oracle.jiraSearch ("key in (" ++ joinComma chunk ++ ")") = Resp.ok found →
    ∀ i ∈ found, i.key ∈ chunk

/-! ### Structural lemmas about the URL grouping of `get_titles` -/

/-- Invariant of a Bugzilla group entry: its key starts with `bugzilla.`, it
is nonempty, and each member url comes from the input and has the key as its
netloc. -/
def bzGroupProp (urls : List String) (hg : String × List String) : Prop :=
  strStarts hg.1 "bugzilla." = true ∧ hg.2 ≠ [] ∧
    ∀ u ∈ hg.2, u ∈ urls ∧ netloc u = hg.1

/-- The merge step of `get_titles` for one completed task. -/
def titleStep (m : List (String × String)) (r : RunOut (List Issue)) :
    List (String × String) :=
  match r.res with
  | none => m
  | some issues => issues.foldl (fun m i => dictUpdate m i.url i.title) m

/-- The tasks submitted by `get_titles`: one per surviving Bugzilla group,
plus one for the Jira urls when there are any. -/
def titleRuns (cfg : Config) (oracle : Oracles) (urls : List String) :
    List (RunOut (List Issue)) :=
  ((partitionUrls urls).1.filter (fun g => g.1 != "bugzilla.gnome.org")).map
      (fun g => get_bugzilla_issues cfg oracle g.1 g.2) ++
    (if (partitionUrls urls).2.isEmpty then []
     else [get_jira_issues cfg oracle (partitionUrls urls).2])

def c7wCfg : Config := ⟨none, none⟩

/-- A Bugzilla endpoint answering every query with bug 5. -/
def c7wOracle : Oracles :=
  ⟨fun _ _ _ => Resp.ok [⟨5, "t"⟩], fun _ => Resp.err "e", fun _ => Resp.err "e"⟩

def c7wUrls : List String :=
  ["https://bugzilla.gnome.org/show_bug.cgi?id=1",
   "https://bugzilla.abc.org/show_bug.cgi?id=5"]

def c6wUrls : List String :=
  ["https://bugzilla.suse.com/show_bug.cgi?id=1",
   "https://jira.suse.com/browse/FOO-1",
   "https://bugzilla.abc.org/show_bug.cgi?id=5"]

/-! ### Claim C1: are the mapping keys always a subset of the input set? -/

def c1Cfg : Config := ⟨none, none⟩

/-- A Bugzilla endpoint answering every query with bug 7. -/
def c1Oracle : Oracles :=
  ⟨fun _ _ _ => Resp.ok [⟨7, "t"⟩], fun _ => Resp.err "e", fun _ => Resp.err "e"⟩

/-- A Bugzilla url already in the canonical `show_bug.cgi?id=` form that the
resolver reconstructs. -/
def bzCanonical (u : String) : Prop :=
  u = "https://" ++ netloc u ++ "/show_bug.cgi?id=" ++ afterLastChar '=' u

/-- A Jira url already in the canonical `browse/` form that the resolver
reconstructs. -/
def jiraCanonical (u : String) : Prop :=
  u = "https://jira.suse.com/browse/" ++ afterLastChar '/' u

def c1wCfg : Config := ⟨some "tok", none⟩

def c1wUrl : String := "https://bugzilla.suse.com/show_bug.cgi?id=123"

/-- An honest Bugzilla endpoint: it answers with bug 123 exactly when id 123
was requested, and with nothing otherwise. -/
def c1wOracle : Oracles :=
  ⟨fun _ ids _ =>
      if "123" ∈ ids then Resp.ok [⟨123, "fix CVE"⟩] else Resp.ok [],
   fun _ => Resp.err "e", fun _ => Resp.err "e"⟩

/-! ### Claim C4: chunking of the batched tracker queries -/

def isJiraBatch : ReqEvent → Bool
  | .jiraBatch _ => true
  | _ => false

/-- The number of identifiers a request carries. -/
def eventSize : ReqEvent → Nat
  | .bz _ ids _ => ids.length
  | .jiraBatch ks => ks.length
  | .jiraInd _ => 1

def c4wCfg : Config := ⟨some "tok", some "jtok"⟩

/-- A tracker backend where every request succeeds with an empty result. -/
def c4wOracle : Oracles :=
  ⟨fun _ _ _ => Resp.ok [], fun _ => Resp.ok [], fun _ => Resp.ok "s"⟩

def c4wUrls : List String :=
  (List.range 201).map
    (fun n => "https://bugzilla.suse.com/show_bug.cgi?id=" ++ natToStr n)

def c4wJUrls : List String :=
  (List.range 201).map
    (fun n => "https://jira.suse.com/browse/FOO-" ++ natToStr n)

/-! ### Claim C5: the missing-Jira-identifier compensation pass -/

def c5Cfg : Config := ⟨none, some "jtok"⟩

/-- A Jira backend whose batch search returns nothing and whose individual
endpoint always fails. -/
def c5Oracle : Oracles :=
  ⟨fun _ _ _ => Resp.err "e", fun _ => Resp.ok [], fun _ => Resp.err "e"⟩

def c5Urls : List String :=
  ["https://jira.suse.com/a/FOO-1", "https://jira.suse.com/b/FOO-1"]

def c5wUrls : List String := ["https://jira.suse.com/browse/FOO-1"]

/-! ### Claim C9: the Bugzilla failure diagnostic does not leak the token -/

/-- The encoded query string of a Bugzilla chunk request (the exact
percent-encoding is irrelevant to the claim; what matters is that it sits
after the `?` and carries the `Bugzilla_api_key` parameter when present). -/
def bzQuery (ids : List String) (apiKey : Option String) : String :=
  "id=" ++ joinComma ids ++ "&include_fields=id,summary" ++
    (match apiKey with
     | none => ""
     | some k => "&Bugzilla_api_key=" ++ k)

/-- Modelled from the `requests` exception text for a failed GET: the reason
followed by `for url:` and the full request URL including its query string
(which embeds the API key for the hosts that require one). -/
def mkHttpErrorMsg (reason host query : String) : String :=
  reason ++ " for url: https://" ++ host ++ "/rest/bug?" ++ query

/-- A Bugzilla backend all of whose requests fail with the modelled
exception text. -/
def failingBzOracle (reason : String) : Oracles :=
  ⟨fun host ids apiKey =>
      Resp.err (mkHttpErrorMsg reason host (bzQuery ids apiKey)),
   fun _ => Resp.err "", fun _ => Resp.err ""⟩

/-! ### A model of the regular-expression subset produced by `get_regex` -/

/-- Tokens of the modelled regex subset: literal characters, `.`, the `^`
and `$` anchors, and postfix `*` repetition — exactly what the patterns
built by `get_regex` in literal mode and in the no-package mode contain. -/
inductive Tok : Type
  | char (c : Char)
  | dot
  | caret
  | dollar
  | star (b : Tok)
deriving DecidableEq, Repr

def tokOf (c : Char) : Tok :=
  if c = '^' then Tok.caret
  else if c = '$' then Tok.dollar
  else if c = '.' then Tok.dot
  else Tok.char c

/-- Parse a pattern string into tokens (postfix `*` binds to the preceding
token). -/
def parseRe : List Char → List Tok
  | [] => []
  | c :: rest =>
    match rest with
    | [] => [tokOf c]
    | d :: rest2 =>
      if d = '*' then Tok.star (tokOf c) :: parseRe rest2
      else tokOf c :: parseRe (d :: rest2)

/-- One-character step for a starred token (anchors consume nothing, so a
starred anchor repeats vacuously). -/
def consumeOne : Tok → List Char → Option (List Char)
  | Tok.char c, x :: xs => if x = c then some xs else none
  | Tok.dot, _ :: xs => some xs
  | _, _ => none

/-- The backtracking loop for `b* <tail>`: try the tail at the current
point, else consume one `b` and repeat.  `fuel` bounds the number of
consumed characters; `s.length + 1` always suffices. -/
def mstarGo (matchTail : Nat → List Char → Bool) (b : Tok) :
    Nat → Nat → List Char → Bool
  | 0, _, _ => false
  | fuel + 1, pos, s =>
    matchTail pos s ||
      (match consumeOne b s with
       | none => false
       | some xs => mstarGo matchTail b fuel (pos + 1) xs)

/-- Matcher `mtok toks pos s`: does the token list match a prefix of `s`, where
`pos` is the absolute position of `s` within the subject (used by `^`)?
This mirrors Python `re` semantics on the subset `get_regex` produces. -/
def mtok : List Tok → Nat → List Char → Bool
  | [], _, _ => true
  | Tok.caret :: ts, pos, s => pos == 0 && mtok ts pos s
  | Tok.dollar :: ts, pos, s => s.isEmpty && mtok ts pos s
  | Tok.char c :: ts, pos, s =>
    match s with
    | [] => false
    | x :: xs => x == c && mtok ts (pos + 1) xs
  | Tok.dot :: ts, pos, s =>
    match s with
    | [] => false
    | _ :: xs => mtok ts (pos + 1) xs
  | Tok.star b :: ts, pos, s => mstarGo (mtok ts) b (s.length + 1) pos s

/-- Python `str.split(sep)` for a one-character separator. -/
def splitOnChar (sep : Char) : List Char → List (List Char)
  | [] => [[]]
  | c :: cs =>
    if c = sep then [] :: splitOnChar sep cs
    else
      match splitOnChar sep cs with
      | [] => [[c]]
      | h :: t => (c :: h) :: t

/-- A pattern is a disjunction of alternatives: Python `|` binds loosest, so
the pattern splits at every `|` (the modelled subset has no grouping that
could shield a `|`), and each alternative carries its own share of the `^`
and `$` anchors — the source of the substring matches of C10. -/
def parseAlts (cs : List Char) : List (List Tok) :=
  (splitOnChar '|' cs).map parseRe

/-- A match of the disjunction at one position: some alternative matches. -/
def mtokAlt (alts : List (List Tok)) (pos : Nat) (s : List Char) : Bool :=
  alts.any (fun ts => mtok ts pos s)

/-- Model of `re.Pattern.search`: try a match at every start position, 0 through the
subject length. -/
def searchAux (alts : List (List Tok)) : Nat → Nat → List Char → Bool
  | 0, _, _ => false
  | fuel + 1, pos, s =>
    mtokAlt alts pos s ||
      (match s with
       | [] => false
       | _ :: xs => searchAux alts fuel (pos + 1) xs)

/-- Model of `pattern.search(s)` for the compiled pattern-with-flags pair; the
`re.IGNORECASE` flag is modelled by lowercasing pattern and subject.  The
model is faithful to Python `re` on the subset its statements exercise:
literal characters, `.`, the anchors, postfix `*`, and top-level `|`
alternation; the remaining metacharacters (`+`, `(`, `\`, ...) are outside
every statement below (the positive ones restrict the argument to
`plainChar`s and dots). -/
def reSearchP (p : String × Bool) (s : String) : Bool :=
  if p.2 then
    searchAux (parseAlts (lowerStr p.1).data) (s.data.length + 1) 0
      (lowerStr s).data
  else searchAux (parseAlts p.1.data) (s.data.length + 1) 0 s.data

/-- Model of `re.escape` of one character: alphanumerics and `_` stand for
themselves, everything else is backslash-escaped. -/
def reEscapeChar (c : Char) : List Char :=
  if c.isAlphanum || c = '_' then [c] else ['\\', c]

/-- Model of `fnmatch.translate`, used by the glob branch of `get_regex`:
`*` becomes `.*`, `?` becomes `.`, a bracket class is copied (with a
leading `!` turned into `^`), and other characters are escaped; the result
is wrapped in `(?s:...)\Z`.  The bracket-class corner cases of the stdlib
are simplified; no claim exercises this branch (C10's literal branch
excludes `[`, `?` and `*`). -/
def fnTranslateGo : Nat → List Char → List Char
  | 0, _ => []
  | _, [] => []
  | fuel + 1, c :: cs =>
    if c = '*' then '.' :: '*' :: fnTranslateGo fuel cs
    else if c = '?' then '.' :: fnTranslateGo fuel cs
    else if c = '[' then
      match cs with
      | '!' :: rest => '[' :: '^' :: fnTranslateGo fuel rest
      | rest => '[' :: fnTranslateGo fuel rest
    else reEscapeChar c ++ fnTranslateGo fuel cs

def fnmatchTranslate (p : String) : String :=
  String.mk (('(' :: '?' :: 's' :: ':' :: fnTranslateGo (2 * p.length) p.data)
    ++ [')', '\\', 'Z'])

/-- Model of `get_regex(package, ignore_case, regex)`: the compiled pattern is
modelled by its pattern string together with the `re.IGNORECASE` flag
(`re.compile(r".*")` for no package; the package itself in regex mode; the
translated glob when the package contains `[`, `?` or `*`; the anchored
`^<package>$` otherwise). -/
def get_regex (package : Option String) (ignore_case : Bool)
    (regex : Bool) : String × Bool :=
  match package with
  | none => (".*", false)
  | some p =>
    if regex then (p, ignore_case)
    else if p.data.any (fun c => c = '[' || c = '?' || c = '*') then
      (fnmatchTranslate p, ignore_case)
    else ("^" ++ p ++ "$", ignore_case)

/-- Does `sub` occur as a contiguous run at some position? -/
def containsSubGo (sub : List Char) : List Char → Bool
  | [] => sub.isEmpty
  | c :: cs => sub.isPrefixOf (c :: cs) || containsSubGo sub cs

/-- Python substring containment (`"SP" in channel`). -/
def containsSub (s sub : String) : Bool := containsSubGo sub.data s.data

/-- Python `sorted` on strings (code-point order). -/
def sortStrings (l : List String) : List String :=
  insertionSort strLe l

/-- Deduplication keeping first occurrences (Python `set` construction
where later claims only need membership). -/
def dedupGo : List String → List String → List String
  | _, [] => []
  | seen, x :: xs =>
    if x ∈ seen then dedupGo seen xs else x :: dedupGo (x :: seen) xs

def dedupList (l : List String) : List String := dedupGo [] l

/-- Python `str.replace` (leftmost, non-overlapping).  Fuel is the subject
length, enough because every step consumes at least one character when the
pattern is nonempty; the script only replaces the nonempty
`"SUSE:Maintenance"` and `"SUSE-MicroOS"`. -/
def pyReplaceGo (pat rep : List Char) : Nat → List Char → List Char
  | _, [] => []
  | 0, s => s
  | n + 1, c :: cs =>
    if pat ≠ [] ∧ pat.isPrefixOf (c :: cs) then
      rep ++ pyReplaceGo pat rep n ((c :: cs).drop pat.length)
    else c :: pyReplaceGo pat rep n cs

def pyReplace (s pat rep : String) : String :=
  String.mk (pyReplaceGo pat.data rep.data s.data.length s.data)

/-- Model of `get_versions(channels, codestreams)`.  The `c.split(":")[1]` of the
source is the second `:`-separated field (an out-of-range index would raise
in Python; the model totalises it to `""`).  `productsSub` stands for the
`PRODUCTS.sub(r"\1-\2", channel)` regex substitution, kept as a parameter
of the model; no claim evaluates it (their channel lists are empty). -/
def get_versions (productsSub : String → String)
    (channels codestreams : List String) : List String :=
  sortStrings (dedupList
    (sortStrings (codestreams.map (fun c =>
        String.mk ((splitOnChar ':' c.data).getD 1 [])))
      ++ ((channels.filter (fun ch =>
            (containsSub ch "SP" || containsSub ch "Micro")
              && !containsSub ch "Manager")).map productsSub).map
          (fun m => pyReplace m "SUSE-MicroOS" "SLE-Micro")))

/-- Model of `get_references`: the nested incident's references when the `incident`
field is truthy, else the record's own references. -/
def get_references (incident : Incident) : List Ref :=
  match incident.incident with
  | some inner => inner.references
  | none => incident.references

def digitsToNat (ds : List Char) : Nat :=
  ds.foldl (fun n c => 10 * n + (c.toNat - 48)) 0

/-- Model of `sort_url`: `re.split(r"([0-9]+)$", url, maxsplit=1)` splits a trailing
digit run off the url; a url without one raises `ValueError` and sorts as
`(url, 0)`. -/
def sort_url (u : String) : String × Nat :=
  let ds := (u.data.reverse.takeWhile Char.isDigit).reverse
  if ds.isEmpty then (u, 0)
  else (String.mk (u.data.take (u.data.length - ds.length)), digitsToNat ds)

/-- The comparison `sorted(..., key=lambda i: sort_url(i["url"]))` uses:
lexicographic order on the `(base, number)` key pair. -/
def refLe (a b : Ref) : Bool :=
  strLt (sort_url a.url).1 (sort_url b.url).1
    || ((sort_url a.url).1 == (sort_url b.url).1
        && decide ((sort_url a.url).2 ≤ (sort_url b.url).2))

/-- The `Reference` dataclass of the script. -/
structure Reference where
  url : String
  title : String
deriving DecidableEq, Repr

/-- Model of `str(urlparse(url).hostname)`: the netloc without userinfo (after the
last `@`) and port (before the first `:`), lowercased; `"None"` when the
URL has no netloc (Python formats the `None` object).  Bracketed IPv6
hosts are not modelled. -/
def hostnameStr (u : String) : String :=
  if netloc u = "" then "None"
  else lowerStr (takeUntilChar ':' (afterLastChar '@' (netloc u)))

/-- Python `"{:<n}"` string formatting: left-justify to a minimum width. -/
def padTo (s : String) (n : Nat) : String :=
  s ++ String.mk (List.replicate (n - s.data.length) ' ')

/-- Model of `Reference.__str__`: empty for an empty url; for a titled reference the
tag is the first character of every dot-separated hostname label joined,
plus `#` and the issue id (the text after the last `=` when the url has
one, else its basename), left-justified to 13 columns before the title.
An empty hostname label would raise `IndexError` in Python; `filterMap`
totalises that unreachable case. -/
def refStr (r : Reference) : String :=
  if r.url = "" then ""
  else if r.title ≠ "" then
    padTo (String.mk ((splitOnChar '.' (hostnameStr r.url).data).filterMap
        List.head?)
      ++ "#"
      ++ (if r.url.data.contains '=' then afterLastChar '=' r.url
          else afterLastChar '/' r.url)) 13
      ++ "  " ++ r.title
  else r.url

def zipL3Go (fill : String) :
    Nat → List String → List String → List String →
      List (String × String × String)
  | 0, _, _, _ => []
  | _, [], [], [] => []
  | n + 1, a, b, c =>
    (a.headD fill, b.headD fill, c.headD fill)
      :: zipL3Go fill n a.tail b.tail c.tail

/-- Model of `itertools.zip_longest` on three string lists with a fill value. -/
def zipL3 (fill : String) (a b c : List String) :
    List (String × String × String) :=
  zipL3Go fill (a.length + b.length + c.length) a b c

/-- The package filter of `print_info`:
`any(map(package_regex.search, filter(None, i["packages"])))`. -/
def incidentMatches (pat : String × Bool) (i : Incident) : Bool :=
  (i.packages.filter (fun p => p != "")).any (fun p => reSearchP pat p)

/-- The set comprehension feeding `get_titles`: the non-CVE reference urls
of all surviving incidents (a Python set; deduplicated, iteration order
modelled as encounter order). -/
def refUrlsForTitles (incidents : List Incident) : List String :=
  dedupList ((incidents.map (fun i =>
    ((get_references i).filter (fun r => !(strStarts r.name "CVE-"))).map
      Ref.url)).flatten)

/-- The ANSI colouring of the request column: only on a tty with more than
one route. -/
def ansiWrap (is_tty : Bool) (routes : List String)
    (status request : String) : String :=
  if is_tty && routes.length > 1 then
    if status = "ready" then "\x1b[32m" ++ request ++ "\x1b[0m"
    else if status = "declined" then "\x1b[31m" ++ request ++ "\x1b[0m"
    else request
  else request

/-- One loop iteration of `print_info`: the lines printed for one incident
(empty when the `continue` guards skip it).  `rw` and `pw` are the request
and package column widths computed by the caller.  When the nested
`incident` object is present the record is replaced by it (references and
the `project`-based request prefix); a top-level record is assumed to carry
no `project` key, as the overview endpoint's records do. -/
def renderIncident (titles : List (String × String)) (pat : String × Bool)
    (is_tty : Bool) (routes : List String) (csv : Bool) (rw pw : Nat)
    (productsSub : String → String) (incident : Incident) : List String :=
  let packages := sortStrings (incident.packages.filter (fun p => p != ""))
  if packages.isEmpty || packages.headD "" == "update-test-trivial"
      || !(packages.any (fun p => reSearchP pat p)) then []
  else
    let request :=
      ansiWrap is_tty routes incident.status
        (match incident.incident with
         | some inner =>
           match inner.project with
           | some proj =>
             pyReplace proj "SUSE:Maintenance" "S:M" ++ ":"
               ++ natToStr incident.request_id
           | none => natToStr incident.request_id
         | none => natToStr incident.request_id)
    let versions := get_versions productsSub incident.channellist
      incident.codestreams
    let references :=
      match incident.incident with
      | some inner => inner.references
      | none => incident.references
    let bugrefs := ((insertionSort refLe references).filter
        (fun r => !(strStarts r.name "CVE-"))).map
        (fun r => Reference.mk r.url (dictGetD titles r.url ""))
    let bugrefs := if bugrefs.isEmpty then [Reference.mk "" ""] else bugrefs
    if csv then
      [request ++ "," ++ String.intercalate " " packages ++ ","
        ++ String.intercalate " " versions ++ ","
        ++ String.intercalate " " (bugrefs.map refStr)]
    else
      (padTo request rw ++ "  " ++ padTo (packages.headD "") pw ++ "  "
          ++ padTo (versions.headD "") 16 ++ " "
          ++ refStr (bugrefs.headD (Reference.mk "" "")))
        :: (zipL3 " " packages.tail versions.tail
            ((bugrefs.map refStr).tail)).map
            (fun t => padTo "" rw ++ "  " ++ padTo t.1 pw ++ "  "
              ++ padTo t.2.1 16 ++ " " ++ t.2.2)

/-- Model of `print_info(routes, package_regex, csv, verbose)`, as the list of lines
printed to standard output.  `is_tty` models the global
`sys.stdout.isatty()`; title resolution runs only when verbose and not CSV;
the package column width is the longest non-empty package name; the request
column is 16 wide for incident records and 6 for submission records. -/
def print_info (cfg : Config) (oracle : Oracles)
    (smelt : String → Option Page) (fuel : Nat) (is_tty : Bool)
    (productsSub : String → String) (routes : List String)
    (pat : String × Bool) (csv verbose : Bool) : List String :=
  let incidents := (get_all_incidents smelt fuel routes).filter
    (incidentMatches pat)
  match incidents with
  | [] => []
  | first :: _ =>
    let titles :=
      if verbose && !csv then
        (get_titles cfg oracle (refUrlsForTitles incidents)).1
      else []
    let pw := ((incidents.map (fun i =>
        (i.packages.filter (fun p => p != "")).map String.length)).flatten).foldl
        Nat.max 0
    let rw := if first.incident.isSome then 16 else 6
    (incidents.map (renderIncident titles pat is_tty routes csv rw pw
      productsSub)).flatten

/-! ### Claim C8: the end-to-end single-incident scenario -/

def c8Url : String := "https://bugzilla.suse.com/show_bug.cgi?id=123"

def c8Incident : Incident :=
  ⟨["zlib"], ["SUSE:15-SP4"], [],
    some ⟨some "SUSE:Maintenance", [⟨"bsc#123", c8Url⟩]⟩,
    42, "ready", []⟩

def c8Smelt : String → Option Page := fun u =>
  if u = incidentsUrl "testing" then some ⟨[c8Incident], none⟩ else none

def c8Cfg : Config := ⟨some "tok", none⟩

def c8Oracle : Oracles :=
  ⟨fun _ _ _ => Resp.ok [⟨123, "fix CVE"⟩], fun _ => Resp.err "e",
   fun _ => Resp.err "e"⟩

def pageIncA : Incident := ⟨["a"], [], [], none, 1, "ready", []⟩

def pageIncB : Incident := ⟨["b"], [], [], none, 2, "ready", []⟩

/-- An overview endpoint with two pages: the first holds `pageIncA` and a
continuation URL, the second holds `pageIncB` and a null `next`. -/
def twoPageOracle : String → Option Page := fun u =>
  if u = incidentsUrl "testing" then
    some ⟨[pageIncA], some "https://smelt.suse.de/page2"⟩
  else if u = "https://smelt.suse.de/page2" then some ⟨[pageIncB], none⟩
  else none

/-! ### Claim C2: failed requests during the per-route paginated fetch -/

/-- An overview endpoint whose `testing` first page succeeds (with a
continuation URL) and where every other request, in particular the
continuation request, fails. -/
def contFailOracle : String → Option Page := fun u =>
  if u = incidentsUrl "testing" then
    some ⟨[pageIncA], some "https://smelt.suse.de/page2"⟩
  else none

/-! ## Theorems -/

theorem fetchPages_chain (smelt : String → Option Page) (d : Page)
    (rest : List Page) (h : PageChain smelt d rest) :
    ∀ fuel : Nat, rest.length ≤ fuel →
      fetchPages smelt fuel d = (rest.map Page.results).flatten := by
  induction h with
  | last d hnext =>
    intro fuel _
    cases fuel with
    | zero => rfl
    | succ n => simp [fetchPages, hnext]
  | stop d hnext =>
    intro fuel _
    cases fuel with
    | zero => rfl
    | succ n => simp [fetchPages, hnext]
  | step d u d2 rest hnext hne hsm _ ih =>
    intro fuel hfuel
    cases fuel with
    | zero => exact absurd hfuel (by simp)
    | succ n =>
      have hn : rest.length ≤ n := by
        simpa using Nat.le_of_succ_le_succ (by simpa using hfuel)
      simp [fetchPages, hnext, hne, hsm, ih n hn]

theorem fetchPages_failchain (smelt : String → Option Page) (d : Page)
    (rest : List Page) (h : FailChain smelt d rest) :
    ∀ fuel : Nat, rest.length < fuel →
      fetchPages smelt fuel d = (rest.map Page.results).flatten := by
  induction h with
  | fail d u hnext hne hsm =>
    intro fuel hfuel
    cases fuel with
    | zero => exact absurd hfuel (by simp)
    | succ n => simp [fetchPages, hnext, hne, hsm]
  | step d u d2 rest hnext hne hsm _ ih =>
    intro fuel hfuel
    cases fuel with
    | zero => exact absurd hfuel (by simp)
    | succ n =>
      have hn : rest.length < n := by
        simpa using Nat.lt_of_succ_lt_succ (by simpa using hfuel)
      simp [fetchPages, hnext, hne, hsm, ih n hn]

/-! ### Structural lemmas about strings and URL hosts -/

theorem takeWhile_append_stop {p : Char → Bool} {a : List Char} {x : Char}
    (b : List Char) (ha : ∀ c ∈ a, p c) (hx : p x = false) :
    (a ++ x :: b).takeWhile p = a := by
  induction a with
  | nil => simp [List.takeWhile_cons, hx]
  | cons c cs ih =>
    have hc : p c = true := ha c (by simp)
    have ih2 := ih (fun d hd => ha d (by simp [hd]))
    simp [List.takeWhile_cons, hc, ih2]

/-- Every character of a netloc is a netloc character (no `/`, `?`, `#`). -/
theorem netloc_chars_ok (u : String) : ∀ c ∈ (netloc u).data, nlOk c := by
  intro c hc
  have : (netloc u).data = netlocChars u.data := rfl
  rw [this] at hc
  unfold netlocChars at hc
  split at hc
  · exact List.mem_takeWhile_imp hc
  · simp at hc

/-- The netloc of a constructed URL `https://<h><t>` is `h`, for any host
`h` made of netloc characters and any tail `t` starting with a slash. -/
theorem netloc_constructed (h t : String) (hh : ∀ c ∈ h.data, nlOk c)
    (ht : ∃ t2, t.data = '/' :: t2) :
    netloc ("https://" ++ h ++ t) = h := by
  obtain ⟨t2, ht2⟩ := ht
  have hdata : ("https://" ++ h ++ t).data
      = 'h' :: 't' :: 't' :: 'p' :: 's' :: ':' :: '/' :: '/' ::
        (h.data ++ '/' :: t2) := by
    have h1 : ("https://" ++ h ++ t).data
        = "https://".data ++ h.data ++ t.data := by
      simp [String.data_append]
    rw [h1, ht2]
    have h2 : "https://".data = ['h', 't', 't', 'p', 's', ':', '/', '/'] := by
      decide
    rw [h2]
    simp
  have hmk : netloc ("https://" ++ h ++ t)
      = String.mk (netlocChars ("https://" ++ h ++ t).data) := rfl
  rw [hmk, hdata]
  have hbreak : netlocChars
      ('h' :: 't' :: 't' :: 'p' :: 's' :: ':' :: '/' :: '/' ::
        (h.data ++ '/' :: t2))
      = (h.data ++ '/' :: t2).takeWhile nlOk := by
    simp [netlocChars, schemeSplit, breakAtColon, isSchemeChar]
  rw [hbreak, takeWhile_append_stop _ hh (by decide)]

theorem isPrefixOf_false_of_ne_head {a b : Char} (ha hb l : List Char)
    (hne : b ≠ a) (h : (a :: ha).isPrefixOf l = true) :
    (b :: hb).isPrefixOf l = false := by
  cases l with
  | nil => simp [List.isPrefixOf] at h
  | cons c cs =>
    simp [List.isPrefixOf] at h ⊢
    intro hbc
    exact absurd (hbc.trans h.1.symm) hne

/-- A host that belongs to a `bugzilla.` group does not start with `jira.`. -/
theorem starts_disjoint {s : String} (h : strStarts s "bugzilla." = true) :
    strStarts s "jira." = false := by
  have hb : "bugzilla.".data = 'b' :: "ugzilla.".data := by decide
  have hj : "jira.".data = 'j' :: "ira.".data := by decide
  unfold strStarts at h ⊢
  rw [hb] at h
  rw [hj]
  exact isPrefixOf_false_of_ne_head _ _ _ (by decide) h

/-! ### Structural lemmas about chunking -/

theorem chunkGo_flatten (n : Nat) : ∀ l : List α, l.length ≤ n →
    (chunkGo n l).flatten = l := by
  induction n with
  | zero =>
    intro l hl
    rw [List.length_eq_zero.mp (Nat.le_zero.mp hl)]
    rfl
  | succ n ih =>
    intro l hl
    cases l with
    | nil => rfl
    | cons x xs =>
      have hlen : ((x :: xs).drop MAX_ISSUES).length ≤ n := by
        rw [List.length_drop]
        simp only [List.length_cons, MAX_ISSUES] at hl ⊢
        omega
      simp only [chunkGo, List.flatten_cons, ih _ hlen]
      exact List.take_append_drop _ _

theorem chunkList_flatten (l : List α) : (chunkList l).flatten = l :=
  chunkGo_flatten l.length l (Nat.le_refl _)

theorem chunkGo_count (n : Nat) : ∀ l : List α, l.length ≤ n →
    (chunkGo n l).length = (l.length + (MAX_ISSUES - 1)) / MAX_ISSUES := by
  induction n with
  | zero =>
    intro l hl
    rw [List.length_eq_zero.mp (Nat.le_zero.mp hl)]
    simp [chunkGo, MAX_ISSUES]
  | succ n ih =>
    intro l hl
    cases l with
    | nil => simp [chunkGo, MAX_ISSUES]
    | cons x xs =>
      have hlen : ((x :: xs).drop MAX_ISSUES).length ≤ n := by
        rw [List.length_drop]
        simp only [List.length_cons, MAX_ISSUES] at hl ⊢
        omega
      simp only [chunkGo, List.length_cons, ih _ hlen]
      rw [List.length_drop]
      simp only [List.length_cons, MAX_ISSUES]
      omega

theorem chunkList_count (l : List α) :
    (chunkList l).length = (l.length + (MAX_ISSUES - 1)) / MAX_ISSUES :=
  chunkGo_count l.length l (Nat.le_refl _)

theorem chunkGo_size (n : Nat) : ∀ (l : List α) (c : List α),
    c ∈ chunkGo n l → c.length ≤ MAX_ISSUES := by
  induction n with
  | zero =>
    intro l c hc
    simp [chunkGo] at hc
  | succ n ih =>
    intro l c hc
    cases l with
    | nil => simp [chunkGo] at hc
    | cons x xs =>
      simp only [chunkGo, List.mem_cons] at hc
      rcases hc with rfl | hc
      · exact List.length_take_le _ _
      · exact ih _ c hc

theorem chunkList_size (l : List α) (c : List α) (hc : c ∈ chunkList l) :
    c.length ≤ MAX_ISSUES :=
  chunkGo_size l.length l c hc

theorem chunk_mem (l : List α) (c : List α) (x : α) (hc : c ∈ chunkList l)
    (hx : x ∈ c) : x ∈ l := by
  have hf : x ∈ (chunkList l).flatten := List.mem_flatten.mpr ⟨c, hc, hx⟩
  rwa [chunkList_flatten] at hf

/-! ### Structural lemmas about the Bugzilla chunk loop -/

theorem bzLoop_success_reqs (oracle : Oracles) (host : String)
    (apiKey : Option String) : ∀ chunks : List (List String),
    (bzLoop oracle host apiKey chunks).res.isSome = true →
    (bzLoop oracle host apiKey chunks).reqs
      = chunks.map (fun c => ReqEvent.bz host c apiKey) := by
  intro chunks
  induction chunks with
  | nil => intro _; rfl
  | cons c rest ih =>
    intro h
    cases horc : oracle.bugzilla host c apiKey with
    | err msg => simp [bzLoop, horc] at h
    | ok bugs =>
      simp only [bzLoop, horc, Option.isSome_map'] at h ⊢
      rw [List.map_cons]
      exact congrArg _ (ih h)

theorem bzLoop_reqs_shape (oracle : Oracles) (host : String)
    (apiKey : Option String) : ∀ chunks : List (List String),
    ∀ e ∈ (bzLoop oracle host apiKey chunks).reqs,
      ∃ ids, e = ReqEvent.bz host ids apiKey ∧ ids ∈ chunks := by
  intro chunks
  induction chunks with
  | nil => intro e he; simp [bzLoop] at he
  | cons c rest ih =>
    intro e he
    cases horc : oracle.bugzilla host c apiKey with
    | err msg =>
      simp [bzLoop, horc] at he
      exact ⟨c, he, by simp⟩
    | ok bugs =>
      simp only [bzLoop, horc, List.mem_cons] at he
      rcases he with rfl | he
      · exact ⟨c, rfl, by simp⟩
      · obtain ⟨ids, hh, hm⟩ := ih e he
        exact ⟨ids, hh, by simp [hm]⟩

theorem bzLoop_issue_shape (oracle : Oracles) (host : String)
    (apiKey : Option String) : ∀ (chunks : List (List String))
    (issues : List Issue),
    (bzLoop oracle host apiKey chunks).res = some issues →
    ∀ i ∈ issues, ∃ n : Nat,
      i.url = "https://" ++ host ++ "/show_bug.cgi?id=" ++ natToStr n := by
  intro chunks
  induction chunks with
  | nil =>
    intro issues h i hi
    simp only [bzLoop, Option.some.injEq] at h
    subst h
    simp at hi
  | cons c rest ih =>
    intro issues h i hi
    cases horc : oracle.bugzilla host c apiKey with
    | err msg => simp [bzLoop, horc] at h
    | ok bugs =>
      simp only [bzLoop, horc, Option.map_eq_some'] at h
      obtain ⟨more, hmore, rfl⟩ := h
      rcases List.mem_append.mp hi with hi | hi
      · obtain ⟨b, _, rfl⟩ := List.mem_map.mp hi
        exact ⟨b.id, rfl⟩
      · exact ih more hmore i hi

theorem bzLoop_honest_issue (oracle : Oracles) (host : String)
    (apiKey : Option String) (hon : bzHonest oracle) :
    ∀ (chunks : List (List String)) (issues : List Issue),
    (bzLoop oracle host apiKey chunks).res = some issues →
    ∀ i ∈ issues, ∃ id, id ∈ chunks.flatten ∧
      i.url = "https://" ++ host ++ "/show_bug.cgi?id=" ++ id := by
  intro chunks
  induction chunks with
  | nil =>
    intro issues h i hi
    simp only [bzLoop, Option.some.injEq] at h
    subst h
    simp at hi
  | cons c rest ih =>
    intro issues h i hi
    cases horc : oracle.bugzilla host c apiKey with
    | err msg => simp [bzLoop, horc] at h
    | ok bugs =>
      simp only [bzLoop, horc, Option.map_eq_some'] at h
      obtain ⟨more, hmore, rfl⟩ := h
      rcases List.mem_append.mp hi with hi | hi
      · obtain ⟨b, hb, rfl⟩ := List.mem_map.mp hi
        refine ⟨natToStr b.id, ?_, rfl⟩
        simp only [List.flatten_cons, List.mem_append]
        exact Or.inl (hon host c apiKey bugs horc b hb)
      · obtain ⟨id, hid, hurl⟩ := ih more hmore i hi
        refine ⟨id, ?_, hurl⟩
        simp only [List.flatten_cons, List.mem_append]
        exact Or.inr hid

/-! ### Structural lemmas about the Jira loops -/

theorem jiraLoop_success_reqs (oracle : Oracles) :
    ∀ chunks : List (List String),
    (jiraLoop oracle chunks).res.isSome = true →
    (jiraLoop oracle chunks).reqs = chunks.map ReqEvent.jiraBatch := by
  intro chunks
  induction chunks with
  | nil => intro _; rfl
  | cons c rest ih =>
    intro h
    cases horc : oracle.jiraSearch ("key in (" ++ joinComma c ++ ")") with
    | err msg => simp [jiraLoop, horc] at h
    | ok found =>
      simp only [jiraLoop, horc, Option.isSome_map'] at h ⊢
      rw [List.map_cons]
      exact congrArg _ (ih h)

theorem jiraLoop_reqs_shape (oracle : Oracles) :
    ∀ chunks : List (List String), ∀ e ∈ (jiraLoop oracle chunks).reqs,
      ∃ ks, e = ReqEvent.jiraBatch ks ∧ ks ∈ chunks := by
  intro chunks
  induction chunks with
  | nil => intro e he; simp [jiraLoop] at he
  | cons c rest ih =>
    intro e he
    cases horc : oracle.jiraSearch ("key in (" ++ joinComma c ++ ")") with
    | err msg =>
      simp [jiraLoop, horc] at he
      exact ⟨c, he, by simp⟩
    | ok found =>
      simp only [jiraLoop, horc, List.mem_cons] at he
      rcases he with rfl | he
      · exact ⟨c, rfl, by simp⟩
      · obtain ⟨ks, hh, hm⟩ := ih e he
        exact ⟨ks, hh, by simp [hm]⟩

theorem jiraLoop_issue_shape (oracle : Oracles) :
    ∀ (chunks : List (List String)) (issues : List Issue),
    (jiraLoop oracle chunks).res = some issues →
    ∀ i ∈ issues, ∃ key, i.url = "https://jira.suse.com/browse/" ++ key := by
  intro chunks
  induction chunks with
  | nil =>
    intro issues h i hi
    simp only [jiraLoop, Option.some.injEq] at h
    subst h
    simp at hi
  | cons c rest ih =>
    intro issues h i hi
    cases horc : oracle.jiraSearch ("key in (" ++ joinComma c ++ ")") with
    | err msg => simp [jiraLoop, horc] at h
    | ok found =>
      simp only [jiraLoop, horc, Option.map_eq_some'] at h
      obtain ⟨more, hmore, rfl⟩ := h
      rcases List.mem_append.mp hi with hi | hi
      · obtain ⟨j, _, rfl⟩ := List.mem_map.mp hi
        exact ⟨j.key, rfl⟩
      · exact ih more hmore i hi

theorem jiraLoop_honest_issue (oracle : Oracles) (hon : jiraHonest oracle) :
    ∀ (chunks : List (List String)) (issues : List Issue),
    (jiraLoop oracle chunks).res = some issues →
    ∀ i ∈ issues, ∃ key, key ∈ chunks.flatten ∧
      i.url = "https://jira.suse.com/browse/" ++ key := by
  intro chunks
  induction chunks with
  | nil =>
    intro issues h i hi
    simp only [jiraLoop, Option.some.injEq] at h
    subst h
    simp at hi
  | cons c rest ih =>
    intro issues h i hi
    cases horc : oracle.jiraSearch ("key in (" ++ joinComma c ++ ")") with
    | err msg => simp [jiraLoop, horc] at h
    | ok found =>
      simp only [jiraLoop, horc, Option.map_eq_some'] at h
      obtain ⟨more, hmore, rfl⟩ := h
      rcases List.mem_append.mp hi with hi | hi
      · obtain ⟨j, hj, rfl⟩ := List.mem_map.mp hi
        refine ⟨j.key, ?_, rfl⟩
        simp only [List.flatten_cons, List.mem_append]
        exact Or.inl (hon c found horc j hj)
      · obtain ⟨key, hkey, hurl⟩ := ih more hmore i hi
        refine ⟨key, ?_, hurl⟩
        simp only [List.flatten_cons, List.mem_append]
        exact Or.inr hkey

theorem jiraRetries_reqs (cfg : Config) (oracle : Oracles)
    (ht : truthy cfg.jiraToken = true) : ∀ us : List String,
    (jiraRetries cfg oracle us).2.1
      = us.map (fun u => ReqEvent.jiraInd (afterLastChar '/' u)) := by
  intro us
  induction us with
  | nil => rfl
  | cons u rest ih =>
    cases horc : oracle.jiraIssue (afterLastChar '/' u) with
    | err msg => simp [jiraRetries, get_jira_issue, ht, horc, ih]
    | ok summary => simp [jiraRetries, get_jira_issue, ht, horc, ih]

theorem jiraRetries_issues (cfg : Config) (oracle : Oracles) :
    ∀ us : List String,
    (jiraRetries cfg oracle us).1
      = us.filterMap (fun u =>
          if truthy cfg.jiraToken then
            match oracle.jiraIssue (afterLastChar '/' u) with
            | Resp.ok summary => some ⟨u, summary⟩
            | Resp.err _ => none
          else none) := by
  intro us
  induction us with
  | nil => rfl
  | cons u rest ih =>
    by_cases ht : truthy cfg.jiraToken
    · cases horc : oracle.jiraIssue (afterLastChar '/' u) with
      | err msg => simp [jiraRetries, get_jira_issue, ht, horc, ih]
      | ok summary => simp [jiraRetries, get_jira_issue, ht, horc, ih]
    · simp [jiraRetries, get_jira_issue, ht, ih]

theorem jiraRetries_issue_mem (cfg : Config) (oracle : Oracles)
    (us : List String) : ∀ i ∈ (jiraRetries cfg oracle us).1, i.url ∈ us := by
  intro i hi
  rw [jiraRetries_issues] at hi
  obtain ⟨u, hu, hval⟩ := List.mem_filterMap.mp hi
  split at hval
  · split at hval
    · cases hval
      exact hu
    · cases hval
  · cases hval

theorem groupAdd_inv {urls : List String} {gs : List (String × List String)}
    {h u : String} (hgs : ∀ hg ∈ gs, bzGroupProp urls hg)
    (hu : u ∈ urls) (hn : netloc u = h) (hb : strStarts h "bugzilla." = true) :
    ∀ hg ∈ groupAdd gs h u, bzGroupProp urls hg := by
  induction gs with
  | nil =>
    intro hg hmem
    simp [groupAdd] at hmem
    subst hmem
    exact ⟨hb, by simp, by intro v hv; simp at hv; subst hv; exact ⟨hu, hn⟩⟩
  | cons g rest ih =>
    intro hg hmem
    by_cases hk : g.1 = h
    · simp [groupAdd, hk] at hmem
      rcases hmem with hmem | hmem
      · subst hmem
        have hgp := hgs g (by simp)
        refine ⟨hk ▸ hgp.1, by simp, ?_⟩
        intro v hv
        simp at hv
        rcases hv with hv | hv
        · have := hgp.2.2 v hv
          exact ⟨this.1, this.2.trans hk⟩
        · subst hv; exact ⟨hu, hn ▸ rfl⟩
      · exact hgs hg (by simp [hmem])
    · rcases g with ⟨k, us⟩
      simp only [groupAdd] at hmem
      rw [if_neg hk] at hmem
      simp at hmem
      rcases hmem with hmem | hmem
      · exact hgs _ (by simp [hmem])
      · exact ih (fun x hx => hgs x (by simp [hx])) hg hmem

theorem partitionGo_inv (urls : List String) :
    ∀ (us : List String) (gs : List (String × List String)) (js : List String),
      (∀ u ∈ us, u ∈ urls) →
      (∀ hg ∈ gs, bzGroupProp urls hg) →
      (∀ u ∈ js, u ∈ urls ∧ strStarts (netloc u) "jira." = true) →
      (∀ hg ∈ (partitionGo gs js us).1, bzGroupProp urls hg) ∧
      (∀ u ∈ (partitionGo gs js us).2,
        u ∈ urls ∧ strStarts (netloc u) "jira." = true) := by
  intro us
  induction us with
  | nil =>
    intro gs js _ hgs hjs
    exact ⟨hgs, hjs⟩
  | cons u rest ih =>
    intro gs js hus hgs hjs
    have hu : u ∈ urls := hus u (by simp)
    have hrest : ∀ v ∈ rest, v ∈ urls := fun v hv => hus v (by simp [hv])
    by_cases hbz : strStarts (netloc u) "bugzilla." = true
    · have : partitionGo gs js (u :: rest)
          = partitionGo (groupAdd gs (netloc u) u) js rest := by
        simp [partitionGo, hbz]
      rw [this]
      exact ih (groupAdd gs (netloc u) u) js hrest
        (groupAdd_inv hgs hu rfl hbz) hjs
    · by_cases hj : strStarts (netloc u) "jira." = true
      · have : partitionGo gs js (u :: rest)
            = partitionGo gs (js ++ [u]) rest := by
          simp [partitionGo, hbz, hj]
        rw [this]
        refine ih gs (js ++ [u]) hrest hgs ?_
        intro v hv
        simp at hv
        rcases hv with hv | hv
        · exact hjs v hv
        · subst hv; exact ⟨hu, hj⟩
      · have : partitionGo gs js (u :: rest) = partitionGo gs js rest := by
          simp [partitionGo, hbz, hj]
        rw [this]
        exact ih gs js hrest hgs hjs

theorem partitionUrls_inv (urls : List String) :
    (∀ hg ∈ (partitionUrls urls).1, bzGroupProp urls hg) ∧
      (∀ u ∈ (partitionUrls urls).2,
        u ∈ urls ∧ strStarts (netloc u) "jira." = true) :=
  partitionGo_inv urls urls [] [] (fun _ hu => hu) (by simp) (by simp)

/-! ### Netlocs of the reconstructed tracker URLs -/

theorem netloc_bz_bug (host id : String) (hok : ∀ c ∈ host.data, nlOk c) :
    netloc ("https://" ++ host ++ "/show_bug.cgi?id=" ++ id) = host := by
  rw [String.append_assoc ("https://" ++ host) "/show_bug.cgi?id=" id]
  refine netloc_constructed host _ hok ?_
  refine ⟨"show_bug.cgi?id=".data ++ id.data, ?_⟩
  rw [String.data_append]
  have h2 : "/show_bug.cgi?id=".data = '/' :: "show_bug.cgi?id=".data := by
    decide
  rw [h2]
  rfl

theorem netloc_jira_browse (key : String) :
    netloc ("https://jira.suse.com/browse/" ++ key) = "jira.suse.com" := by
  have h2 : "https://jira.suse.com/browse/"
      = ("https://" ++ "jira.suse.com") ++ "/browse/" := by decide
  rw [h2, String.append_assoc ("https://" ++ "jira.suse.com") "/browse/" key]
  refine netloc_constructed _ _ (by decide) ?_
  refine ⟨"browse/".data ++ key.data, ?_⟩
  rw [String.data_append]
  have h3 : "/browse/".data = '/' :: "browse/".data := by decide
  rw [h3]
  rfl

/-! ### Wrapper lemmas for `get_bugzilla_issues` -/

theorem get_bz_dropped (cfg : Config) (oracle : Oracles) (host : String)
    (urls : List String) (ht : truthy cfg.bugzillaToken = false)
    (hh : host ∈ tokenHosts) :
    get_bugzilla_issues cfg oracle host urls = ⟨none, [], []⟩ := by
  simp [get_bugzilla_issues, ht, hh]

theorem get_bz_reqs_shape (cfg : Config) (oracle : Oracles) (host : String)
    (urls : List String) :
    ∀ e ∈ (get_bugzilla_issues cfg oracle host urls).reqs,
      ∃ ids apiKey, e = ReqEvent.bz host ids apiKey := by
  intro e he
  unfold get_bugzilla_issues at he
  split at he
  · simp at he
  · obtain ⟨ids, hh, _⟩ := bzLoop_reqs_shape _ _ _ _ e he
    exact ⟨ids, _, hh⟩

theorem get_bz_issue_netloc (cfg : Config) (oracle : Oracles) (host : String)
    (urls : List String) (issues : List Issue) (hok : ∀ c ∈ host.data, nlOk c)
    (hres : (get_bugzilla_issues cfg oracle host urls).res = some issues) :
    ∀ i ∈ issues, netloc i.url = host := by
  intro i hi
  unfold get_bugzilla_issues at hres
  split at hres
  · cases hres
  · obtain ⟨n, hurl⟩ := bzLoop_issue_shape _ _ _ _ issues hres i hi
    rw [hurl]
    exact netloc_bz_bug host _ hok

theorem get_bz_issue_origin_honest (cfg : Config) (oracle : Oracles)
    (host : String) (urls : List String) (issues : List Issue)
    (hon : bzHonest oracle)
    (hres : (get_bugzilla_issues cfg oracle host urls).res = some issues) :
    ∀ i ∈ issues, ∃ id, id ∈ urls.map (afterLastChar '=') ∧
      i.url = "https://" ++ host ++ "/show_bug.cgi?id=" ++ id := by
  intro i hi
  unfold get_bugzilla_issues at hres
  split at hres
  · cases hres
  · obtain ⟨id, hid, hurl⟩ :=
      bzLoop_honest_issue _ _ _ hon _ issues hres i hi
    rw [chunkList_flatten] at hid
    exact ⟨id, hid, hurl⟩

theorem get_bz_success_reqs (cfg : Config) (oracle : Oracles) (host : String)
    (urls : List String)
    (hs : (get_bugzilla_issues cfg oracle host urls).res.isSome = true) :
    (get_bugzilla_issues cfg oracle host urls).reqs
      = (chunkList (urls.map (afterLastChar '='))).map
          (fun c => ReqEvent.bz host c
            (if host ∈ tokenHosts then some (strOfOpt cfg.bugzillaToken)
             else none)) := by
  by_cases hguard : ¬ truthy cfg.bugzillaToken = true ∧ host ∈ tokenHosts
  · unfold get_bugzilla_issues at hs
    rw [if_pos hguard] at hs
    simp at hs
  · unfold get_bugzilla_issues at hs ⊢
    rw [if_neg hguard] at hs ⊢
    exact bzLoop_success_reqs _ _ _ _ hs

/-! ### Wrapper lemmas for `get_jira_issues` -/

theorem get_jira_dropped (cfg : Config) (oracle : Oracles)
    (urls : List String) (ht : truthy cfg.jiraToken = false) :
    get_jira_issues cfg oracle urls = ⟨none, [], []⟩ := by
  simp [get_jira_issues, ht]

theorem get_jira_reqs_shape (cfg : Config) (oracle : Oracles)
    (urls : List String) :
    ∀ e ∈ (get_jira_issues cfg oracle urls).reqs,
      eventHost e = "jira.suse.com" ∧
        ((∃ ks, e = ReqEvent.jiraBatch ks) ∨ ∃ k, e = ReqEvent.jiraInd k) := by
  intro e he
  by_cases ht : truthy cfg.jiraToken = true
  · have hne : ¬ (¬ truthy cfg.jiraToken = true) := by simp [ht]
    unfold get_jira_issues at he
    rw [if_neg hne] at he
    split at he
    · rename_i reqs0 errs0 heq
      have he2 : e ∈
          (jiraLoop oracle (chunkList (urls.map (afterLastChar '/')))).reqs := by
        rw [heq]
        exact he
      obtain ⟨ks, rfl, _⟩ := jiraLoop_reqs_shape _ _ e he2
      exact ⟨rfl, Or.inl ⟨ks, rfl⟩⟩
    · rename_i issues0 reqs0 errs0 heq
      rcases List.mem_append.mp he with h | h
      · have he2 : e ∈
            (jiraLoop oracle (chunkList (urls.map (afterLastChar '/')))).reqs := by
          rw [heq]
          exact h
        obtain ⟨ks, rfl, _⟩ := jiraLoop_reqs_shape _ _ e he2
        exact ⟨rfl, Or.inl ⟨ks, rfl⟩⟩
      · unfold jiraCompensate at h
        rw [jiraRetries_reqs cfg oracle ht] at h
        obtain ⟨u, _, rfl⟩ := List.mem_map.mp h
        exact ⟨rfl, Or.inr ⟨_, rfl⟩⟩
  · rw [get_jira_dropped cfg oracle urls (by simpa using ht)] at he
    simp at he

theorem get_jira_issue_origin (cfg : Config) (oracle : Oracles)
    (urls : List String) (issues : List Issue)
    (hres : (get_jira_issues cfg oracle urls).res = some issues) :
    ∀ i ∈ issues,
      (∃ key, i.url = "https://jira.suse.com/browse/" ++ key) ∨
        i.url ∈ urls := by
  intro i hi
  by_cases ht : truthy cfg.jiraToken = true
  · have hne : ¬ (¬ truthy cfg.jiraToken = true) := by simp [ht]
    unfold get_jira_issues at hres
    rw [if_neg hne] at hres
    split at hres
    · exact Option.noConfusion hres
    · rename_i issues0 reqs0 errs0 heq
      have hloop : (jiraLoop oracle
          (chunkList (urls.map (afterLastChar '/')))).res = some issues0 := by
        rw [heq]
      obtain rfl : issues0 ++ (jiraCompensate cfg oracle urls issues0).1
          = issues := Option.some.inj hres
      rcases List.mem_append.mp hi with h | h
      · exact Or.inl (jiraLoop_issue_shape _ _ issues0 hloop i h)
      · unfold jiraCompensate at h
        have := jiraRetries_issue_mem cfg oracle _ i h
        exact Or.inr (List.mem_filter.mp this).1
  · rw [get_jira_dropped cfg oracle urls (by simpa using ht)] at hres
    cases hres

theorem get_jira_issue_origin_honest (cfg : Config) (oracle : Oracles)
    (urls : List String) (issues : List Issue) (hon : jiraHonest oracle)
    (hres : (get_jira_issues cfg oracle urls).res = some issues) :
    ∀ i ∈ issues,
      (∃ key, key ∈ urls.map (afterLastChar '/') ∧
        i.url = "https://jira.suse.com/browse/" ++ key) ∨
        i.url ∈ urls := by
  intro i hi
  by_cases ht : truthy cfg.jiraToken = true
  · have hne : ¬ (¬ truthy cfg.jiraToken = true) := by simp [ht]
    unfold get_jira_issues at hres
    rw [if_neg hne] at hres
    split at hres
    · exact Option.noConfusion hres
    · rename_i issues0 reqs0 errs0 heq
      have hloop : (jiraLoop oracle
          (chunkList (urls.map (afterLastChar '/')))).res = some issues0 := by
        rw [heq]
      obtain rfl : issues0 ++ (jiraCompensate cfg oracle urls issues0).1
          = issues := Option.some.inj hres
      rcases List.mem_append.mp hi with h | h
      · obtain ⟨key, hkey, hurl⟩ :=
          jiraLoop_honest_issue _ hon _ issues0 hloop i h
        rw [chunkList_flatten] at hkey
        exact Or.inl ⟨key, hkey, hurl⟩
      · unfold jiraCompensate at h
        have := jiraRetries_issue_mem cfg oracle _ i h
        exact Or.inr (List.mem_filter.mp this).1
  · rw [get_jira_dropped cfg oracle urls (by simpa using ht)] at hres
    cases hres

/-! ### Key-origin lemmas for the merged title dictionary -/

theorem dictKeys_update (m : List (String × String)) (k0 v k : String)
    (hk : k ∈ dictKeys (dictUpdate m k0 v)) : k ∈ dictKeys m ∨ k = k0 := by
  unfold dictUpdate at hk
  split at hk
  · unfold dictKeys at hk
    obtain ⟨p, hp, hpk⟩ := List.mem_map.mp hk
    obtain ⟨q, hq, rfl⟩ := List.mem_map.mp hp
    by_cases h0 : q.1 == k0
    · rw [if_pos h0] at hpk
      exact Or.inr hpk.symm
    · rw [if_neg h0] at hpk
      exact Or.inl (List.mem_map.mpr ⟨q, hq, hpk⟩)
  · unfold dictKeys at hk
    rw [List.map_append] at hk
    rcases List.mem_append.mp hk with h | h
    · exact Or.inl h
    · simp at h
      exact Or.inr h

theorem dict_foldl_issues_keys (issues : List Issue) :
    ∀ (m : List (String × String)) (k : String),
      k ∈ dictKeys (issues.foldl (fun m i => dictUpdate m i.url i.title) m) →
      k ∈ dictKeys m ∨ ∃ i ∈ issues, i.url = k := by
  induction issues with
  | nil => intro m k hk; exact Or.inl hk
  | cons i rest ih =>
    intro m k hk
    rw [List.foldl_cons] at hk
    rcases ih _ k hk with h | h
    · rcases dictKeys_update m i.url i.title k h with h2 | h2
      · exact Or.inl h2
      · exact Or.inr ⟨i, by simp, h2.symm⟩
    · obtain ⟨j, hj, hjk⟩ := h
      exact Or.inr ⟨j, by simp [hj], hjk⟩

theorem dict_foldl_runs_keys (runs : List (RunOut (List Issue))) :
    ∀ (m : List (String × String)) (k : String),
      k ∈ dictKeys (runs.foldl titleStep m) →
      k ∈ dictKeys m ∨
        ∃ r ∈ runs, ∃ issues, r.res = some issues ∧ ∃ i ∈ issues, i.url = k := by
  induction runs with
  | nil => intro m k hk; exact Or.inl hk
  | cons r rest ih =>
    intro m k hk
    rw [List.foldl_cons] at hk
    rcases ih _ k hk with h | h
    · cases hres : r.res with
      | none =>
        unfold titleStep at h
        rw [hres] at h
        exact Or.inl h
      | some issues =>
        unfold titleStep at h
        rw [hres] at h
        rcases dict_foldl_issues_keys issues m k h with h2 | h2
        · exact Or.inl h2
        · obtain ⟨i, hi, hik⟩ := h2
          exact Or.inr ⟨r, by simp, issues, hres, i, hi, hik⟩
    · obtain ⟨r2, hr2, rest2⟩ := h
      exact Or.inr ⟨r2, by simp [hr2], rest2⟩

theorem get_titles_unfold (cfg : Config) (oracle : Oracles)
    (urls : List String) :
    get_titles cfg oracle urls =
      ((titleRuns cfg oracle urls).foldl titleStep [],
        ((titleRuns cfg oracle urls).map RunOut.reqs).flatten,
        ((titleRuns cfg oracle urls).map RunOut.errs).flatten) := rfl

theorem titleRuns_mem (cfg : Config) (oracle : Oracles) (urls : List String)
    (r : RunOut (List Issue)) (hr : r ∈ titleRuns cfg oracle urls) :
    (∃ hg ∈ (partitionUrls urls).1, hg.1 ≠ "bugzilla.gnome.org" ∧
      r = get_bugzilla_issues cfg oracle hg.1 hg.2) ∨
    r = get_jira_issues cfg oracle (partitionUrls urls).2 := by
  unfold titleRuns at hr
  rcases List.mem_append.mp hr with h | h
  · obtain ⟨g, hg, rfl⟩ := List.mem_map.mp h
    have hf := List.mem_filter.mp hg
    refine Or.inl ⟨g, hf.1, ?_, rfl⟩
    simpa using hf.2
  · split at h
    · simp at h
    · simp at h
      exact Or.inr h

/-- Every key of the resolver's mapping is the url of an issue produced by
one of the surviving group queries. -/
theorem get_titles_key_origin (cfg : Config) (oracle : Oracles)
    (urls : List String) (k : String)
    (hk : k ∈ dictKeys (get_titles cfg oracle urls).1) :
    ∃ r ∈ titleRuns cfg oracle urls,
      ∃ issues, r.res = some issues ∧ ∃ i ∈ issues, i.url = k := by
  rw [get_titles_unfold] at hk
  rcases dict_foldl_runs_keys _ _ _ hk with h | h
  · simp [dictKeys] at h
  · exact h

/-- Every request in the resolver's trace was issued by one of the surviving
group queries. -/
theorem get_titles_req_origin (cfg : Config) (oracle : Oracles)
    (urls : List String) (e : ReqEvent)
    (he : e ∈ (get_titles cfg oracle urls).2.1) :
    ∃ r ∈ titleRuns cfg oracle urls, e ∈ r.reqs := by
  rw [get_titles_unfold] at he
  simp only [List.mem_flatten, List.mem_map] at he
  obtain ⟨l, ⟨r, hr, rfl⟩, hel⟩ := he
  exact ⟨r, hr, hel⟩

theorem jira_start_not_tokenHost {s : String}
    (h : strStarts s "jira." = true) : s ∉ tokenHosts := by
  intro hs
  simp only [tokenHosts, List.mem_cons, List.not_mem_nil, or_false] at hs
  rcases hs with rfl | rfl
  · exact absurd h (by decide)
  · exact absurd h (by decide)

/-! ### Claim C7: the `bugzilla.gnome.org` group is dropped before querying -/

/-- C7: for every input URL set, a URL whose host is `bugzilla.gnome.org`
never appears as a key of the resolver's output mapping, and no request is
ever issued to that host: the group is dropped before querying. -/
theorem claim_C7_gnome_dropped (cfg : Config) (oracle : Oracles)
    (urls : List String) :
    (∀ e ∈ (get_titles cfg oracle urls).2.1,
      eventHost e ≠ "bugzilla.gnome.org") ∧
    (∀ k ∈ dictKeys (get_titles cfg oracle urls).1,
      netloc k ≠ "bugzilla.gnome.org") := by
  constructor
  · intro e he
    obtain ⟨r, hr, her⟩ := get_titles_req_origin cfg oracle urls e he
    rcases titleRuns_mem cfg oracle urls r hr with ⟨hg, hhg, hgn, rfl⟩ | rfl
    · obtain ⟨ids, apiKey, rfl⟩ := get_bz_reqs_shape _ _ _ _ e her
      exact hgn
    · have hj := (get_jira_reqs_shape _ _ _ e her).1
      rw [hj]
      decide
  · intro k hk
    obtain ⟨r, hr, issues, hres, i, hi, hik⟩ :=
      get_titles_key_origin cfg oracle urls k hk
    rcases titleRuns_mem cfg oracle urls r hr with ⟨hg, hhg, hgn, rfl⟩ | rfl
    · have hprop := (partitionUrls_inv urls).1 hg hhg
      obtain ⟨u0, hu0⟩ := List.exists_mem_of_ne_nil _ hprop.2.1
      have hnet : netloc u0 = hg.1 := (hprop.2.2 u0 hu0).2
      have hok : ∀ c ∈ hg.1.data, nlOk c := by
        rw [← hnet]
        exact netloc_chars_ok u0
      have hn := get_bz_issue_netloc cfg oracle hg.1 hg.2 issues hok hres i hi
      rw [← hik, hn]
      exact hgn
    · rcases get_jira_issue_origin cfg oracle _ issues hres i hi with
        ⟨key, hkey⟩ | hmem
      · rw [← hik, hkey, netloc_jira_browse]
        decide
      · have hj := ((partitionUrls_inv urls).2 i.url hmem).2
        rw [← hik]
        intro hgn2
        rw [hgn2] at hj
        exact absurd hj (by decide)

/-! ### Claim C6: credential gating drops groups silently -/

/-- C6: when the Bugzilla API token is not configured (unset or empty), the
two Bugzilla hosts that require a token are dropped without any request and
without any diagnostic, and the resolver's mapping contains no entry whose
URL points at those hosts; likewise the whole Jira group is dropped when the
Jira token is not configured. -/
theorem claim_C6_missing_tokens (cfg : Config) (oracle : Oracles) :
    (∀ host ∈ tokenHosts, ∀ urls, truthy cfg.bugzillaToken = false →
      get_bugzilla_issues cfg oracle host urls = ⟨none, [], []⟩) ∧
    (∀ urls, truthy cfg.jiraToken = false →
      get_jira_issues cfg oracle urls = ⟨none, [], []⟩) ∧
    (∀ urls, truthy cfg.bugzillaToken = false →
      (∀ e ∈ (get_titles cfg oracle urls).2.1, eventHost e ∉ tokenHosts) ∧
      (∀ k ∈ dictKeys (get_titles cfg oracle urls).1,
        netloc k ∉ tokenHosts)) ∧
    (∀ urls, truthy cfg.jiraToken = false →
      (∀ e ∈ (get_titles cfg oracle urls).2.1,
        ∃ h ids apiKey, e = ReqEvent.bz h ids apiKey) ∧
      (∀ k ∈ dictKeys (get_titles cfg oracle urls).1,
        strStarts (netloc k) "jira." = false)) := by
  refine ⟨?_, ?_, ?_, ?_⟩
  · intro host hh urls ht
    exact get_bz_dropped cfg oracle host urls ht hh
  · intro urls ht
    exact get_jira_dropped cfg oracle urls ht
  · intro urls ht
    constructor
    · intro e he
      obtain ⟨r, hr, her⟩ := get_titles_req_origin cfg oracle urls e he
      rcases titleRuns_mem cfg oracle urls r hr with ⟨hg, hhg, hgn, rfl⟩ | rfl
      · by_cases hmem : hg.1 ∈ tokenHosts
        · rw [get_bz_dropped cfg oracle hg.1 hg.2 ht hmem] at her
          simp at her
        · obtain ⟨ids, apiKey, rfl⟩ := get_bz_reqs_shape _ _ _ _ e her
          exact hmem
      · have hj := (get_jira_reqs_shape _ _ _ e her).1
        rw [hj]
        decide
    · intro k hk
      obtain ⟨r, hr, issues, hres, i, hi, hik⟩ :=
        get_titles_key_origin cfg oracle urls k hk
      rcases titleRuns_mem cfg oracle urls r hr with ⟨hg, hhg, hgn, rfl⟩ | rfl
      · by_cases hmem : hg.1 ∈ tokenHosts
        · rw [get_bz_dropped cfg oracle hg.1 hg.2 ht hmem] at hres
          cases hres
        · have hprop := (partitionUrls_inv urls).1 hg hhg
          obtain ⟨u0, hu0⟩ := List.exists_mem_of_ne_nil _ hprop.2.1
          have hnet : netloc u0 = hg.1 := (hprop.2.2 u0 hu0).2
          have hok : ∀ c ∈ hg.1.data, nlOk c := by
            rw [← hnet]
            exact netloc_chars_ok u0
          have hn := get_bz_issue_netloc cfg oracle hg.1 hg.2 issues hok hres i hi
          rw [← hik, hn]
          exact hmem
      · rcases get_jira_issue_origin cfg oracle _ issues hres i hi with
          ⟨key, hkey⟩ | hmem
        · rw [← hik, hkey, netloc_jira_browse]
          decide
        · have hj := ((partitionUrls_inv urls).2 i.url hmem).2
          rw [← hik]
          exact jira_start_not_tokenHost hj
  · intro urls ht
    constructor
    · intro e he
      obtain ⟨r, hr, her⟩ := get_titles_req_origin cfg oracle urls e he
      rcases titleRuns_mem cfg oracle urls r hr with ⟨hg, hhg, hgn, rfl⟩ | rfl
      · obtain ⟨ids, apiKey, rfl⟩ := get_bz_reqs_shape _ _ _ _ e her
        exact ⟨hg.1, ids, apiKey, rfl⟩
      · rw [get_jira_dropped cfg oracle _ ht] at her
        simp at her
    · intro k hk
      obtain ⟨r, hr, issues, hres, i, hi, hik⟩ :=
        get_titles_key_origin cfg oracle urls k hk
      rcases titleRuns_mem cfg oracle urls r hr with ⟨hg, hhg, hgn, rfl⟩ | rfl
      · have hprop := (partitionUrls_inv urls).1 hg hhg
        obtain ⟨u0, hu0⟩ := List.exists_mem_of_ne_nil _ hprop.2.1
        have hnet : netloc u0 = hg.1 := (hprop.2.2 u0 hu0).2
        have hok : ∀ c ∈ hg.1.data, nlOk c := by
          rw [← hnet]
          exact netloc_chars_ok u0
        have hn := get_bz_issue_netloc cfg oracle hg.1 hg.2 issues hok hres i hi
        rw [← hik, hn]
        exact starts_disjoint hprop.1
      · rw [get_jira_dropped cfg oracle _ ht] at hres
        cases hres

/-- Witness for C7: with a gnome url and another Bugzilla url in the input,
the only request goes to the other host and the only mapping key has the
other host as netloc. -/
theorem claim_C7_witness :
    (ReqEvent.bz "bugzilla.abc.org" ["5"] none
        ∈ (get_titles c7wCfg c7wOracle c7wUrls).2.1 ∧
      eventHost (ReqEvent.bz "bugzilla.abc.org" ["5"] none)
        ≠ "bugzilla.gnome.org") ∧
    ("https://bugzilla.abc.org/show_bug.cgi?id=5"
        ∈ dictKeys (get_titles c7wCfg c7wOracle c7wUrls).1 ∧
      netloc "https://bugzilla.abc.org/show_bug.cgi?id=5"
        ≠ "bugzilla.gnome.org") :=
  ⟨⟨by decide,
    (claim_C7_gnome_dropped c7wCfg c7wOracle c7wUrls).1 _ (by decide)⟩,
   ⟨by decide,
    (claim_C7_gnome_dropped c7wCfg c7wOracle c7wUrls).2 _ (by decide)⟩⟩

/-- Witness for C6: with no tokens configured, the token-requiring host is
dropped entirely, the Jira group is dropped entirely, and the surviving
requests and keys belong to the unauthenticated host only. -/
theorem claim_C6_witness :
    get_bugzilla_issues c7wCfg c7wOracle "bugzilla.suse.com"
        ["https://bugzilla.suse.com/show_bug.cgi?id=1"] = ⟨none, [], []⟩ ∧
    get_jira_issues c7wCfg c7wOracle ["https://jira.suse.com/browse/FOO-1"]
        = ⟨none, [], []⟩ ∧
    (ReqEvent.bz "bugzilla.abc.org" ["5"] none
        ∈ (get_titles c7wCfg c7wOracle c6wUrls).2.1 ∧
      eventHost (ReqEvent.bz "bugzilla.abc.org" ["5"] none) ∉ tokenHosts) ∧
    ("https://bugzilla.abc.org/show_bug.cgi?id=5"
        ∈ dictKeys (get_titles c7wCfg c7wOracle c6wUrls).1 ∧
      netloc "https://bugzilla.abc.org/show_bug.cgi?id=5" ∉ tokenHosts) ∧
    (∃ h ids apiKey, ReqEvent.bz "bugzilla.abc.org" ["5"] none
        = ReqEvent.bz h ids apiKey) ∧
    strStarts (netloc "https://bugzilla.abc.org/show_bug.cgi?id=5") "jira."
        = false :=
  ⟨(claim_C6_missing_tokens c7wCfg c7wOracle).1 "bugzilla.suse.com" (by decide)
      _ (by decide),
   (claim_C6_missing_tokens c7wCfg c7wOracle).2.1 _ (by decide),
   ⟨by decide,
    ((claim_C6_missing_tokens c7wCfg c7wOracle).2.2.1 c6wUrls (by decide)).1
      _ (by decide)⟩,
   ⟨by decide,
    ((claim_C6_missing_tokens c7wCfg c7wOracle).2.2.1 c6wUrls (by decide)).2
      _ (by decide)⟩,
   ((claim_C6_missing_tokens c7wCfg c7wOracle).2.2.2 c6wUrls (by decide)).1
      _ (by decide),
   ((claim_C6_missing_tokens c7wCfg c7wOracle).2.2.2 c6wUrls (by decide)).2
      _ (by decide)⟩

/-- Counterexample to C1: the resolver reconstructs its mapping keys as
`https://<host>/show_bug.cgi?id=<id>` from the response, so an input URL in
any other format (here `/bug?id=7`) yields a key that is not a member of the
input set. -/
theorem claim_C1_counterexample :
    dictKeys (get_titles c1Cfg c1Oracle ["https://bugzilla.abc.org/bug?id=7"]).1
        = ["https://bugzilla.abc.org/show_bug.cgi?id=7"] ∧
    "https://bugzilla.abc.org/show_bug.cgi?id=7"
        ∉ ["https://bugzilla.abc.org/bug?id=7"] := by decide

/-- C1 (amended): the resolver reconstructs its keys canonically from the
tracker responses, so keys need not be input URLs in general; when every
grouped input URL is already in the canonical form the resolver reconstructs
and the trackers only return identifiers that were requested, every key of
the returned mapping is a member of the input set. -/
theorem claim_C1_amended (cfg : Config) (oracle : Oracles) (urls : List String)
    (honBz : bzHonest oracle) (honJira : jiraHonest oracle)
    (hcanBz : ∀ u ∈ urls, strStarts (netloc u) "bugzilla." = true →
      bzCanonical u)
    (hcanJira : ∀ u ∈ urls, strStarts (netloc u) "jira." = true →
      jiraCanonical u)
    (k : String) (hk : k ∈ dictKeys (get_titles cfg oracle urls).1) :
    k ∈ urls := by
  obtain ⟨r, hr, issues, hres, i, hi, hik⟩ :=
    get_titles_key_origin cfg oracle urls k hk
  rcases titleRuns_mem cfg oracle urls r hr with ⟨hg, hhg, hgn, rfl⟩ | rfl
  · obtain ⟨id, hid, hurl⟩ :=
      get_bz_issue_origin_honest cfg oracle hg.1 hg.2 issues honBz hres i hi
    obtain ⟨u, hu, rfl⟩ := List.mem_map.mp hid
    have hprop := (partitionUrls_inv urls).1 hg hhg
    have hu2 := hprop.2.2 u hu
    have hcan := hcanBz u hu2.1 (by rw [hu2.2]; exact hprop.1)
    rw [← hik, hurl, ← hu2.2, ← hcan]
    exact hu2.1
  · rcases get_jira_issue_origin_honest cfg oracle _ issues honJira hres i hi
      with ⟨key, hkey, hurl⟩ | hmem
    · obtain ⟨u, hu, rfl⟩ := List.mem_map.mp hkey
      have hj := (partitionUrls_inv urls).2 u hu
      have hcan := hcanJira u hj.1 hj.2
      rw [← hik, hurl, ← hcan]
      exact hj.1
    · rw [← hik]
      exact ((partitionUrls_inv urls).2 i.url hmem).1

theorem c1wOracle_honestBz : bzHonest c1wOracle := by
  intro host ids apiKey bugs h b hb
  unfold c1wOracle at h
  simp only at h
  split at h
  · rename_i hmem
    obtain rfl : ([⟨123, "fix CVE"⟩] : List BzBug) = bugs := Resp.ok.inj h
    simp at hb
    subst hb
    have h123 : natToStr (123 : Nat) = "123" := by decide
    rw [h123]
    exact hmem
  · obtain rfl : ([] : List BzBug) = bugs := Resp.ok.inj h
    simp at hb

theorem c1wOracle_honestJira : jiraHonest c1wOracle := by
  intro chunk found h
  exact absurd h (by simp [c1wOracle])

/-- Witness for the amended C1: a canonical input url with an honest
endpoint yields exactly that url as the mapping key, and the theorem places
it in the input set. -/
theorem claim_C1_amended_witness :
    dictKeys (get_titles c1wCfg c1wOracle [c1wUrl]).1 = [c1wUrl] ∧
      c1wUrl ∈ [c1wUrl] :=
  ⟨by decide,
   claim_C1_amended c1wCfg c1wOracle [c1wUrl] c1wOracle_honestBz
     c1wOracle_honestJira
     (by
       intro u hu hbz
       simp at hu
       subst hu
       show c1wUrl = "https://" ++ netloc c1wUrl ++ "/show_bug.cgi?id="
         ++ afterLastChar '=' c1wUrl
       decide)
     (by
       intro u hu hj
       simp at hu
       subst hu
       exact absurd hj (by decide))
     c1wUrl (by decide)⟩

theorem get_jira_success_batchReqs (cfg : Config) (oracle : Oracles)
    (urls : List String)
    (hs : (get_jira_issues cfg oracle urls).res.isSome = true) :
    (get_jira_issues cfg oracle urls).reqs.filter isJiraBatch
      = (chunkList (urls.map (afterLastChar '/'))).map ReqEvent.jiraBatch := by
  by_cases ht : truthy cfg.jiraToken = true
  · have hne : ¬ (¬ truthy cfg.jiraToken = true) := by simp [ht]
    unfold get_jira_issues at hs ⊢
    rw [if_neg hne] at hs ⊢
    rcases hjl : jiraLoop oracle (chunkList (urls.map (afterLastChar '/')))
      with ⟨res0, reqs0, errs0⟩
    cases res0 with
    | none =>
      rw [hjl] at hs
      simp at hs
    | some issues0 =>
      have hreqs0 : reqs0
          = (chunkList (urls.map (afterLastChar '/'))).map ReqEvent.jiraBatch := by
        have := jiraLoop_success_reqs oracle
          (chunkList (urls.map (afterLastChar '/'))) (by rw [hjl]; rfl)
        rwa [hjl] at this
      show (reqs0 ++ (jiraCompensate cfg oracle urls issues0).2.1).filter
          isJiraBatch = _
      rw [List.filter_append, hreqs0]
      have h1 : ((chunkList (urls.map (afterLastChar '/'))).map
          ReqEvent.jiraBatch).filter isJiraBatch
          = (chunkList (urls.map (afterLastChar '/'))).map ReqEvent.jiraBatch := by
        refine List.filter_eq_self.mpr ?_
        intro e he
        obtain ⟨ks, _, rfl⟩ := List.mem_map.mp he
        rfl
      have h2 : ((jiraCompensate cfg oracle urls issues0).2.1).filter
          isJiraBatch = [] := by
        unfold jiraCompensate
        rw [jiraRetries_reqs cfg oracle ht]
        refine List.filter_eq_nil_iff.mpr ?_
        intro a ha
        obtain ⟨u, _, rfl⟩ := List.mem_map.mp ha
        simp [isJiraBatch]
      rw [h1, h2, List.append_nil]
  · rw [get_jira_dropped cfg oracle urls (by simpa using ht)] at hs
    simp at hs

/-- C4: for a host group of N identifiers (N > 0) whose requests all
succeed, exactly `ceil(N/200)` batched requests are issued to that host's
endpoint, each carrying at most 200 identifiers — for the Bugzilla chunk
loop and for the Jira batch search alike (`ceil(N/200)` is
`(N + 199) / 200`). -/
theorem claim_C4_chunking (cfg : Config) (oracle : Oracles) (host : String)
    (urls jurls : List String) (_hbz : urls ≠ []) (_hjn : jurls ≠ [])
    (hsb : (get_bugzilla_issues cfg oracle host urls).res.isSome = true)
    (hsj : (get_jira_issues cfg oracle jurls).res.isSome = true) :
    ((get_bugzilla_issues cfg oracle host urls).reqs.length
        = (urls.length + (MAX_ISSUES - 1)) / MAX_ISSUES) ∧
    (∀ e ∈ (get_bugzilla_issues cfg oracle host urls).reqs,
        eventSize e ≤ MAX_ISSUES) ∧
    (((get_jira_issues cfg oracle jurls).reqs.filter isJiraBatch).length
        = (jurls.length + (MAX_ISSUES - 1)) / MAX_ISSUES) ∧
    (∀ e ∈ (get_jira_issues cfg oracle jurls).reqs.filter isJiraBatch,
        eventSize e ≤ MAX_ISSUES) := by
  have hbzreqs := get_bz_success_reqs cfg oracle host urls hsb
  have hjreqs := get_jira_success_batchReqs cfg oracle jurls hsj
  refine ⟨?_, ?_, ?_, ?_⟩
  · rw [hbzreqs, List.length_map, chunkList_count, List.length_map]
  · intro e he
    rw [hbzreqs] at he
    obtain ⟨c, hc, rfl⟩ := List.mem_map.mp he
    exact chunkList_size _ c hc
  · rw [hjreqs, List.length_map, chunkList_count, List.length_map]
  · intro e he
    rw [hjreqs] at he
    obtain ⟨c, hc, rfl⟩ := List.mem_map.mp he
    exact chunkList_size _ c hc

/-- Witness for C4: 201 identifiers yield exactly 2 batched requests of at
most 200 identifiers each, on both trackers. -/
theorem claim_C4_witness :
    ((get_bugzilla_issues c4wCfg c4wOracle "bugzilla.suse.com" c4wUrls).reqs.length
        = (c4wUrls.length + (MAX_ISSUES - 1)) / MAX_ISSUES) ∧
    (eventSize (ReqEvent.bz "bugzilla.suse.com"
        ((c4wUrls.map (afterLastChar '=')).take MAX_ISSUES) (some "tok"))
        ≤ MAX_ISSUES) ∧
    ((c4wUrls.length + (MAX_ISSUES - 1)) / MAX_ISSUES = 2) ∧
    (((get_jira_issues c4wCfg c4wOracle c4wJUrls).reqs.filter
        isJiraBatch).length = (c4wJUrls.length + (MAX_ISSUES - 1)) / MAX_ISSUES) := by
  have h := claim_C4_chunking c4wCfg c4wOracle "bugzilla.suse.com" c4wUrls
    c4wJUrls (by decide) (by decide) (by decide) (by decide)
  exact ⟨h.1, h.2.1 _ (by decide), by decide, h.2.2.1⟩

/-- Counterexample to C5: two distinct input urls share the identifier
`FOO-1` (their path basename); the identifier is requested in the batch and
absent from the (empty) response, yet TWO individual follow-up requests for
it are issued — one per missing url, not one per identifier. -/
theorem claim_C5_counterexample :
    (get_jira_issues c5Cfg c5Oracle c5Urls).reqs.head?
        = some (ReqEvent.jiraBatch ["FOO-1", "FOO-1"]) ∧
    ((get_jira_issues c5Cfg c5Oracle c5Urls).reqs.filter
        (fun e => e == ReqEvent.jiraInd "FOO-1")).length = 2 ∧
    (2 : Nat) ≠ 1 := by decide

/-- C5 (amended): after a successful batch pass, exactly one individual
follow-up request is issued per input URL whose canonical reconstruction is
absent from the batch response (so an identifier shared by several missing
URLs is requested once per such URL); a failed follow-up contributes nothing
while the successful ones are all appended, and no follow-up failure aborts
the rest of the resolution. -/
theorem claim_C5_amended (cfg : Config) (oracle : Oracles) (urls : List String)
    (issues0 : List Issue) (ht : truthy cfg.jiraToken = true)
    (hres : (jiraLoop oracle (chunkList (urls.map (afterLastChar '/')))).res
      = some issues0) :
    ((get_jira_issues cfg oracle urls).reqs
      = (jiraLoop oracle (chunkList (urls.map (afterLastChar '/')))).reqs
        ++ (urls.filter (fun u => !((issues0.map Issue.url).contains u))).map
            (fun u => ReqEvent.jiraInd (afterLastChar '/' u))) ∧
    ((get_jira_issues cfg oracle urls).res
      = some (issues0
          ++ (urls.filter (fun u => !((issues0.map Issue.url).contains u))).filterMap
              (fun u =>
                match oracle.jiraIssue (afterLastChar '/' u) with
                | Resp.ok summary => some ⟨u, summary⟩
                | Resp.err _ => none))) := by
  have hne : ¬ (¬ truthy cfg.jiraToken = true) := by simp [ht]
  unfold get_jira_issues
  rw [if_neg hne]
  rcases hjl : jiraLoop oracle (chunkList (urls.map (afterLastChar '/')))
    with ⟨res0, reqs0, errs0⟩
  rw [hjl] at hres
  obtain rfl : res0 = some issues0 := hres
  constructor
  · show reqs0 ++ (jiraCompensate cfg oracle urls issues0).2.1 = _
    unfold jiraCompensate
    rw [jiraRetries_reqs cfg oracle ht]
  · show some (issues0 ++ (jiraCompensate cfg oracle urls issues0).1) = _
    unfold jiraCompensate
    rw [jiraRetries_issues]
    simp only [ht, if_true]

/-- Witness for the amended C5: one url missing from an empty batch response
yields exactly one individual follow-up, whose failure leaves the result at
the batch issues. -/
theorem claim_C5_amended_witness :
    ((get_jira_issues c5Cfg c5Oracle c5wUrls).reqs
      = (jiraLoop c5Oracle (chunkList (c5wUrls.map (afterLastChar '/')))).reqs
        ++ (c5wUrls.filter
            (fun u => !((([] : List Issue).map Issue.url).contains u))).map
            (fun u => ReqEvent.jiraInd (afterLastChar '/' u))) ∧
    ((get_jira_issues c5Cfg c5Oracle c5wUrls).res
      = some (([] : List Issue)
          ++ (c5wUrls.filter
              (fun u => !((([] : List Issue).map Issue.url).contains u))).filterMap
              (fun u =>
                match c5Oracle.jiraIssue (afterLastChar '/' u) with
                | Resp.ok summary => some ⟨u, summary⟩
                | Resp.err _ => none))) :=
  claim_C5_amended c5Cfg c5Oracle c5wUrls [] (by decide) (by decide)

theorem bzLoop_first_fail_errs (oracle : Oracles) (host : String)
    (apiKey : Option String) (chunk : List String) (rest : List (List String))
    (msg : String) (horc : oracle.bugzilla host chunk apiKey = Resp.err msg) :
    (bzLoop oracle host apiKey (chunk :: rest)).errs
      = ["ERROR: https://" ++ host ++ "/rest/bug: " ++ takeUntilChar '?' msg] := by
  simp [bzLoop, horc]

theorem takeUntil_msg (reason host q : String)
    (hr : ∀ c ∈ reason.data, c ≠ '?') (hh : ∀ c ∈ host.data, c ≠ '?') :
    takeUntilChar '?' (mkHttpErrorMsg reason host q)
      = reason ++ " for url: https://" ++ host ++ "/rest/bug" := by
  have hdata : (mkHttpErrorMsg reason host q).data
      = (reason ++ " for url: https://" ++ host ++ "/rest/bug").data
          ++ '?' :: q.data := by
    unfold mkHttpErrorMsg
    simp only [String.data_append]
    simp [List.append_assoc]
  have hall : ∀ c ∈ (reason ++ " for url: https://" ++ host
      ++ "/rest/bug").data, (fun c => decide (c ≠ '?')) c = true := by
    intro c hc
    simp only [String.data_append, List.mem_append] at hc
    rcases hc with ((hc | hc) | hc) | hc
    · simp [hr c hc]
    · revert c
      decide
    · simp [hh c hc]
    · revert c
      decide
  show String.mk ((mkHttpErrorMsg reason host q).data.takeWhile _) = _
  rw [hdata, takeWhile_append_stop _ hall (by decide)]

theorem failing_bz_errs (cfg : Config) (reason host : String)
    (urls : List String) (ht : truthy cfg.bugzillaToken = true)
    (hr : ∀ c ∈ reason.data, c ≠ '?') (hh : ∀ c ∈ host.data, c ≠ '?')
    (hurls : urls ≠ []) :
    (get_bugzilla_issues cfg (failingBzOracle reason) host urls).errs
      = ["ERROR: https://" ++ host ++ "/rest/bug: "
          ++ (reason ++ " for url: https://" ++ host ++ "/rest/bug")] := by
  unfold get_bugzilla_issues
  rw [if_neg (by simp [ht])]
  cases urls with
  | nil => exact absurd rfl hurls
  | cons u us =>
    have hchunk : chunkList ((u :: us).map (afterLastChar '='))
        = ((u :: us).map (afterLastChar '=')).take MAX_ISSUES
          :: chunkGo ((us.map (afterLastChar '=')).length)
              (((u :: us).map (afterLastChar '=')).drop MAX_ISSUES) := rfl
    rw [hchunk, bzLoop_first_fail_errs _ _ _ _ _ _ rfl, takeUntil_msg _ _ _ hr hh]

/-- C9: for a failing Bugzilla chunk request the diagnostic on standard
error truncates the exception text at its first `?`, cutting off the query
string that carries the API key; two runs that differ only in the Bugzilla
token value emit identical diagnostics, and the diagnostic is exactly the
reason plus the query-less request URL. -/
theorem claim_C9_no_token_leak (reason host : String) (urls : List String)
    (t1 t2 : String) (jt1 jt2 : Option String) (ht1 : t1 ≠ "") (ht2 : t2 ≠ "")
    (hr : ∀ c ∈ reason.data, c ≠ '?') (hh : ∀ c ∈ host.data, c ≠ '?')
    (hurls : urls ≠ []) :
    ((get_bugzilla_issues ⟨some t1, jt1⟩ (failingBzOracle reason) host
        urls).errs
      = (get_bugzilla_issues ⟨some t2, jt2⟩ (failingBzOracle reason) host
        urls).errs) ∧
    ((get_bugzilla_issues ⟨some t1, jt1⟩ (failingBzOracle reason) host
        urls).errs
      = ["ERROR: https://" ++ host ++ "/rest/bug: "
          ++ (reason ++ " for url: https://" ++ host ++ "/rest/bug")]) := by
  have h1 := failing_bz_errs ⟨some t1, jt1⟩ reason host urls
    (by simp [truthy, ht1]) hr hh hurls
  have h2 := failing_bz_errs ⟨some t2, jt2⟩ reason host urls
    (by simp [truthy, ht2]) hr hh hurls
  exact ⟨h1.trans h2.symm, h1⟩

/-- Witness for C9: two runs with tokens `secret1` and `secret2` emit the
same diagnostic, which carries the query-less URL only. -/
theorem claim_C9_witness :
    ((get_bugzilla_issues ⟨some "secret1", none⟩ (failingBzOracle
        "500 Server Error: Internal Server Error") "bugzilla.suse.com"
        ["https://bugzilla.suse.com/show_bug.cgi?id=1"]).errs
      = (get_bugzilla_issues ⟨some "secret2", none⟩ (failingBzOracle
        "500 Server Error: Internal Server Error") "bugzilla.suse.com"
        ["https://bugzilla.suse.com/show_bug.cgi?id=1"]).errs) ∧
    ((get_bugzilla_issues ⟨some "secret1", none⟩ (failingBzOracle
        "500 Server Error: Internal Server Error") "bugzilla.suse.com"
        ["https://bugzilla.suse.com/show_bug.cgi?id=1"]).errs
      = ["ERROR: https://bugzilla.suse.com/rest/bug: "
          ++ ("500 Server Error: Internal Server Error"
            ++ " for url: https://bugzilla.suse.com/rest/bug")]) :=
  claim_C9_no_token_leak "500 Server Error: Internal Server Error"
    "bugzilla.suse.com" ["https://bugzilla.suse.com/show_bug.cgi?id=1"]
    "secret1" "secret2" none none (by decide) (by decide) (by decide)
    (by decide) (by decide)

/-- Counterexample to C8: in the claimed scenario the reference column of
the printed row renders the hostname as its initials tag `bsc#123` (padded
to 13 columns), not as `bugzilla.suse.com#123`; no printed line contains
the claimed text. -/
theorem claim_C8_counterexample :
    refStr ⟨c8Url, "fix CVE"⟩ ≠ "bugzilla.suse.com#123  fix CVE" ∧
    (print_info c8Cfg c8Oracle c8Smelt 5 false (fun s => s) ["testing"]
        (get_regex none false false) false true).all
      (fun line => !(containsSub line "bugzilla.suse.com#123")) = true ∧
    print_info c8Cfg c8Oracle c8Smelt 5 false (fun s => s) ["testing"]
        (get_regex none false false) false true ≠ [] := by decide

/-- C8 (amended): the scenario's resolver mapping is
`{<url>: "fix CVE"}` and the printed report row shows request `S:M:42`,
package `zlib`, version `15-SP4`, and the reference rendered as the
13-column `bsc#123` tag followed by two spaces and `fix CVE`. -/
theorem claim_C8_amended :
    (get_titles c8Cfg c8Oracle [c8Url]).1 = [(c8Url, "fix CVE")] ∧
    print_info c8Cfg c8Oracle c8Smelt 5 false (fun s => s) ["testing"]
        (get_regex none false false) false true
      = [padTo "S:M:42" 16 ++ "  " ++ padTo "zlib" 4 ++ "  "
          ++ padTo "15-SP4" 16 ++ " "
          ++ (padTo "bsc#123" 13 ++ "  " ++ "fix CVE")] := by decide

/-! ### Claim C3: successful pagination concatenates the pages in order -/

theorem claim_C3_pagination (smelt : String → Option Page) (fuel : Nat)
    (route : String) (d : Page) (rest : List Page)
    (hfirst : smelt (incidentsUrl route) = some d)
    (hchain : PageChain smelt d rest) (hfuel : rest.length ≤ fuel) :
    get_incidents smelt fuel route =
      d.results ++ (rest.map Page.results).flatten := by
  simp [get_incidents, hfirst, fetchPages_chain smelt d rest hchain fuel hfuel]

/-- Witness for C3: the two-page scenario of the spec, fetched sequence `[A, B]`. -/
theorem claim_C3_pagination_witness :
    get_incidents twoPageOracle 5 "testing" = [pageIncA, pageIncB] := by
  have hch : PageChain twoPageOracle
      ⟨[pageIncA], some "https://smelt.suse.de/page2"⟩ [⟨[pageIncB], none⟩] :=
    PageChain.step _ _ _ _ rfl (by decide) (by decide) (PageChain.last _ rfl)
  have h := claim_C3_pagination twoPageOracle 5 "testing" _ _ (by decide) hch
    (by decide)
  simpa using h

/-- Counterexample to C2: when the first page of a route succeeds with
results `[pageIncA]` and the continuation request fails, the route
contributes the partial results `[pageIncA]`, not zero results. -/
theorem claim_C2_counterexample :
    get_incidents contFailOracle 5 "testing" = [pageIncA] ∧
      get_incidents contFailOracle 5 "testing" ≠ [] := by decide

/-- C2 (amended): a route whose FIRST page request fails contributes zero
results and leaves the other routes unaffected; a route whose continuation
request fails contributes exactly the results of the pages fetched before the
failure (which need not be zero). -/
theorem claim_C2_amended (smelt : String → Option Page) (fuel : Nat)
    (r : String) (l1 l2 : List String) (d : Page) (rest : List Page) :
    (smelt (incidentsUrl r) = none → get_incidents smelt fuel r = []) ∧
    (smelt (incidentsUrl r) = none →
      get_all_incidents smelt fuel (l1 ++ r :: l2) =
        get_all_incidents smelt fuel (l1 ++ l2)) ∧
    (smelt (incidentsUrl r) = some d → FailChain smelt d rest →
      rest.length < fuel →
      get_incidents smelt fuel r =
        d.results ++ (rest.map Page.results).flatten) := by
  refine ⟨?_, ?_, ?_⟩
  · intro h
    simp [get_incidents, h]
  · intro h
    have hz : get_incidents smelt fuel r = [] := by simp [get_incidents, h]
    simp [get_all_incidents, hz]
  · intro h hfc hfuel
    simp [get_incidents, h, fetchPages_failchain smelt d rest hfc fuel hfuel]

/-- Witness for the amended C2, on `contFailOracle`: route `declined` (first
request fails) contributes zero results and dropping it from the route list
does not change the output; route `testing` (continuation fails) contributes
its first page. -/
theorem claim_C2_amended_witness :
    get_incidents contFailOracle 5 "declined" = [] ∧
    get_all_incidents contFailOracle 5 (["testing"] ++ "declined" :: []) =
      get_all_incidents contFailOracle 5 (["testing"] ++ []) ∧
    get_incidents contFailOracle 5 "testing" =
      [pageIncA] ++ (([] : List Page).map Page.results).flatten := by
  refine ⟨?_, ?_, ?_⟩
  · exact (claim_C2_amended contFailOracle 5 "declined" [] [] ⟨[], none⟩ []).1
      (by decide)
  · exact (claim_C2_amended contFailOracle 5 "declined" ["testing"] []
      ⟨[], none⟩ []).2.1 (by decide)
  · exact (claim_C2_amended contFailOracle 5 "testing" [] []
      ⟨[pageIncA], some "https://smelt.suse.de/page2"⟩ []).2.2 (by decide)
      (FailChain.fail _ "https://smelt.suse.de/page2" rfl (by decide) (by decide))
      (by decide)

end Smeltme

